import Mathlib

/-!
# Image and video processing server: job pipeline

A shallow embedding of `src/server.js` (classes `ImageEditor` and
`VideoGenerator`, the `GET /result/:jobId` handler and `processJob`).

Conventions of the embedding.

* Every outbound HTTP call is replaced by the reply it receives, supplied by
  the caller: `GeminiResponse` for the editing service, `SubmitResponse` and
  `StatusResponse` for the video service.  A function `Nat → Response` gives
  the reply to the call with that index, so a theorem quantified over such a
  function holds for every behaviour of the service.
* An `async` function that can reject returns `Except String α`, the string
  being `error.message`.
* JavaScript numbers are rationals (`ℚ`); the pipeline only adds, multiplies
  and takes minima of small constants.
* A JavaScript property that may be `undefined` is an `Option`.
* Mutation of the shared job record is explicit state passing on `World`,
  which also records every assignment and every outbound call in order.
-/

namespace Server

/-! ## JavaScript helpers -/

/-- Truthiness of a value that is a string or `undefined`. -/
def truthy : Option String → Bool
  | none => false
  | some s => s != ""

/-- The expression `a || b` where `b` is a string. -/
def orElseStr (a : Option String) (b : String) : String :=
  match a with
  | some s => if s != "" then s else b
  | none => b

/-- The expression `a || b` where both sides may be `undefined`. -/
def orElseOpt (a b : Option String) : Option String :=
  if truthy a then a else b

/-! ## ImageEditor -/

/-- The content of `part.inline_data`. -/
structure InlineData where
  mime_type : Option String
  data : Option String
deriving DecidableEq, Repr

/-- One element of `result.candidates[0].content.parts`. -/
structure Part where
  inline_data : Option InlineData
  text : Option String
deriving DecidableEq, Repr

/-- Everything the `try` block of `editImage` can observe of the service.
`exception msg`: `fetch`, `response.text()` or `response.json()` rejected with
an error whose message is `msg` (transport or parsing error).
`httpError status text`: a reply with `response.ok` false.
`ok parts`: a reply with `response.ok` true; `parts` is
`result.candidates?.[0]?.content?.parts`. -/
inductive GeminiResponse where
  | exception (msg : String)
  | httpError (status : Nat) (errorText : String)
  | ok (parts : Option (List Part))
deriving DecidableEq, Repr

/-- The object returned by `editImage`. -/
structure EditResult where
  success : Bool
  imageBase64 : Option String
  message : Option String
  error : Option String
deriving DecidableEq, Repr

/-- The `for` loop over the parts: the first part with `inline_data` decides
the result. -/
def firstInlineData : List Part → Option InlineData
  | [] => none
  | part :: rest =>
    match part.inline_data with
    | some d => some d
    | none => firstInlineData rest

/-- The `try` block of `editImage`: the value returned, or the message of the
error thrown. -/
def editImageTry (imageBase64 : String) (response : GeminiResponse) : Except String EditResult :=
  match response with
  | .exception msg => .error msg
  | .httpError status errorText =>
    .error ("API error: " ++ toString status ++ " - " ++ errorText)
  | .ok parts =>
    match (parts.getD []) |> firstInlineData with
    | some d =>
      .ok { success := true, imageBase64 := d.data,
            message := some "Image successfully generated with Gemini 2.5 Flash Image",
            error := none }
    | none =>
      .ok { success := true, imageBase64 := some imageBase64,
            message := some "Using original image (Gemini did not return an image)",
            error := none }

/-- The method `ImageEditor.editImage`: the `try` block with its `catch`. -/
def editImage (imageBase64 : String) (_prompt : Option String) (response : GeminiResponse) :
    EditResult :=
  match editImageTry imageBase64 response with
  | .ok r => r
  | .error msg =>
    { success := false, imageBase64 := some imageBase64, message := none, error := some msg }

/-- An element of the list returned by `generateVariations`, with the
`imageUrl` that `processJob` attaches later. -/
structure Variation where
  id : String
  prompt : Option String
  success : Bool
  imageBase64 : String
  message : Option String
  imageUrl : Option String
deriving DecidableEq, Repr

/-- The three variation prompts built from the base prompt. -/
def prompts (basePrompt : String) : List String :=
  [ "Transform this outdoor space: " ++ basePrompt ++
      ". Add luxury stone pavers, modern outdoor furniture, and ambient lighting. Golden hour lighting.",
    "Transform this outdoor space: " ++ basePrompt ++
      ". Add a fire pit area, comfortable seating, and premium hardscaping with natural stone. Evening atmosphere.",
    "Transform this outdoor space: " ++ basePrompt ++
      ". Create a modern minimalist design with clean lines, water features, and high-end materials." ]

/-- The object pushed by iteration `i` of `generateVariations`. -/
def variationOf (imageBase64 basePrompt : String) (i : Nat) (response : GeminiResponse) :
    Variation :=
  let result := editImage imageBase64 ((prompts basePrompt)[i]?) response
  { id := "var_" ++ toString (i + 1),
    prompt := (prompts basePrompt)[i]?,
    success := result.success,
    imageBase64 := orElseStr result.imageBase64 imageBase64,
    message := orElseOpt result.message result.error,
    imageUrl := none }

/-- The loop `for (let i = 0; i < count; i++)` of `generateVariations`;
`remaining` is `count - i`. -/
def generateVariationsLoop (gemini : Nat → GeminiResponse) (imageBase64 basePrompt : String) :
    Nat → Nat → List Variation → List Variation
  | 0, _, variations => variations
  | remaining + 1, i, variations =>
    generateVariationsLoop gemini imageBase64 basePrompt remaining (i + 1)
      (variations ++ [variationOf imageBase64 basePrompt i (gemini i)])

/-- The method `ImageEditor.generateVariations`; `gemini i` is the reply to the editing
call of iteration `i`. -/
def generateVariations (gemini : Nat → GeminiResponse) (imageBase64 basePrompt : String)
    (count : Nat) : List Variation :=
  generateVariationsLoop gemini imageBase64 basePrompt count 0 []

/-! ## VideoGenerator -/

/-- The message of the `TypeError` raised by V8 when `data.data` is missing
and `data.data.task_id` is read. -/
def typeErrorMessage : String := "Cannot read properties of undefined (reading 'task_id')"

/-- The content of `data.data` in the reply to a submission. -/
structure TaskData where
  task_id : String
  task_status : String
deriving DecidableEq, Repr

/-- Everything the `try` block of `createVideo` can observe of the service.
`exception msg`: `fetch` or `response.json()` rejected with that message.
`reply ok code message data`: a parsed body with `response.ok`, `data.code`,
`data.message` and `data.data`. -/
inductive SubmitResponse where
  | exception (msg : String)
  | reply (ok : Bool) (code : Int) (message : Option String) (data : Option TaskData)
deriving DecidableEq, Repr

/-- The object returned by `createVideo`. -/
structure SubmitResult where
  success : Bool
  taskId : Option String
  status : Option String
  error : Option String
deriving DecidableEq, Repr

/-- The `try` block of `createVideo`. -/
def createVideoTry (response : SubmitResponse) : Except String SubmitResult :=
  match response with
  | .exception msg => .error msg
  | .reply ok code message data =>
    if ok && code == 0 then
      match data with
      | some d =>
        .ok { success := true, taskId := some d.task_id, status := some d.task_status,
              error := none }
      | none => .error typeErrorMessage
    else
      .error (orElseStr message "Failed to create video")

/-- The method `VideoGenerator.createVideo`: the `try` block with its `catch`. -/
def createVideo (response : SubmitResponse) : SubmitResult :=
  match createVideoTry response with
  | .ok r => r
  | .error msg => { success := false, taskId := none, status := none, error := some msg }

/-- An element of `data.data.task_result.videos`. -/
structure Video where
  url : Option String
  duration : Option String
deriving DecidableEq, Repr

/-- Everything the `try` block of `checkStatus` can observe of the service.
`exception`: `fetch` or `response.json()` rejected, or the body has no
`data.data`.  `reply ok code task_status task_status_msg videos`: a parsed
body; `videos` is `data.data.task_result.videos` when `task_result` is
present. -/
inductive StatusResponse where
  | exception
  | reply (ok : Bool) (code : Int) (task_status : String) (task_status_msg : Option String)
      (task_result : Option (List Video))
deriving DecidableEq, Repr

/-- The object returned by `checkStatus`. -/
structure StatusResult where
  success : Bool
  status : String
  statusMessage : Option String
  videoUrl : Option String
  duration : Option String
deriving DecidableEq, Repr

/-- The object `{ success: false, status: 'error' }`. -/
def errorStatus : StatusResult :=
  { success := false, status := "error", statusMessage := none, videoUrl := none,
    duration := none }

/-- The method `VideoGenerator.checkStatus`.  Reading `video.url` of an empty `videos`
array throws inside the `try` block, which falls through to the error
object. -/
def checkStatus (response : StatusResponse) : StatusResult :=
  match response with
  | .exception => errorStatus
  | .reply ok code task_status task_status_msg task_result =>
    if ok && code == 0 then
      if task_status == "succeed" then
        match task_result with
        | some (video :: _) =>
          { success := true, status := task_status, statusMessage := task_status_msg,
            videoUrl := video.url, duration := video.duration }
        | some [] => errorStatus
        | none =>
          { success := true, status := task_status, statusMessage := task_status_msg,
            videoUrl := none, duration := none }
      else
        { success := true, status := task_status, statusMessage := task_status_msg,
          videoUrl := none, duration := none }
    else errorStatus

/-- What `waitForVideo` does besides calling the callback: a
`setTimeout` of the given length, and the status check of attempt `i`. -/
inductive PollEvent where
  | wait (ms : Nat)
  | check (i : Nat)
deriving DecidableEq, Repr

/-- The constant `maxAttempts` of `waitForVideo`. -/
def maxAttempts : Nat := 180

/-- The constant `pollInterval` of `waitForVideo`, in milliseconds. -/
def pollInterval : Nat := 5000

/-- The value `Math.min((i * 5 / 600) * 100, 99)` passed to the callback. -/
def estimate (i : Nat) : ℚ := min (((i : ℚ) * 5 / 600) * 100) 99

/-- How a call of `waitForVideo` ends: the value returned or the message of
the error thrown, the state left by the callback, and what was done. -/
structure WaitOutcome (σ : Type) where
  result : Except String StatusResult
  state : σ
  log : List PollEvent

/-- The block `if (updateCallback) { ... }` of attempt `i`, acting on the
state the callback closes over. -/
def callbackAt {σ : Type} (updateCallback : Option (String → ℚ → σ → σ))
    (status : StatusResult) (i : Nat) (s : σ) : σ :=
  match updateCallback with
  | some cb => cb status.status (estimate i) s
  | none => s

/-- The loop `for (let i = 0; i < maxAttempts; i++)` of `waitForVideo`;
`remaining` is `maxAttempts - i`, and leaving the loop throws the timeout. -/
def waitLoop {σ : Type} (kling : Nat → StatusResponse)
    (updateCallback : Option (String → ℚ → σ → σ)) :
    Nat → Nat → σ → List PollEvent → WaitOutcome σ
  | 0, _, s, log => { result := .error "Timeout waiting for video", state := s, log := log }
  | remaining + 1, i, s, log =>
    let log := if i > 0 then log ++ [PollEvent.wait pollInterval] else log
    let status := checkStatus (kling i)
    let log := log ++ [PollEvent.check i]
    let s := callbackAt updateCallback status i s
    if status.status = "succeed" then
      { result := .ok status, state := s, log := log }
    else if status.status = "failed" then
      { result := .error (orElseStr status.statusMessage "Video generation failed"),
        state := s, log := log }
    else
      waitLoop kling updateCallback remaining (i + 1) s log

/-- The method `VideoGenerator.waitForVideo`; `kling i` is the reply to the status
request of attempt `i`. -/
def waitForVideo {σ : Type} (kling : Nat → StatusResponse)
    (updateCallback : Option (String → ℚ → σ → σ)) (s : σ) : WaitOutcome σ :=
  waitLoop kling updateCallback maxAttempts 0 s []

/-- The number of status checks in a log. -/
def countChecks (log : List PollEvent) : Nat :=
  (log.filter (fun e => match e with | .check _ => true | .wait _ => false)).length

/-- The number of waits in a log. -/
def countWaits (log : List PollEvent) : Nat :=
  (log.filter (fun e => match e with | .wait _ => true | .check _ => false)).length

/-- What attempt `i` of the poll loop does: a wait of `pollInterval` unless
it is the first attempt, then the status check. -/
def attemptLog (i : Nat) : List PollEvent :=
  if i > 0 then [PollEvent.wait pollInterval, PollEvent.check i] else [PollEvent.check i]

/-- What the first `n` attempts of the poll loop do. -/
def pollLog (n : Nat) : List PollEvent :=
  (List.range n).flatMap attemptLog

/-- The state after the callbacks of the first `n` attempts. -/
def pollState {σ : Type} (kling : Nat → StatusResponse)
    (updateCallback : Option (String → ℚ → σ → σ)) (n : Nat) (s : σ) : σ :=
  (List.range n).foldl (fun s i => callbackAt updateCallback (checkStatus (kling i)) i s) s

/-- A status that ends the poll loop. -/
def terminalStatus (s : String) : Bool := s == "succeed" || s == "failed"

/-! ## Jobs -/

/-- An element of `job.videos`: the object `videoJob` of `processJob`. -/
structure VideoJob where
  id : String
  variationId : String
  taskId : Option String
  status : String
  videoUrl : Option String
  duration : Option String
  error : Option String
deriving DecidableEq, Repr

/-- A job record of the registry `jobs`. -/
structure Job where
  id : String
  status : String
  stage : String
  progress : ℚ
  createdAt : String
  completedAt : Option String
  prompt : String
  generateVideos : Bool
  variations : List Variation
  videos : List VideoJob
  error : Option String
deriving DecidableEq, Repr

/-- The job record built by `POST /process` before `processJob` starts. -/
def createJob (jobId prompt createdAt : String) (generateVideos : Bool) : Job :=
  { id := jobId, status := "processing", stage := "generating_variations", progress := 0,
    createdAt := createdAt, completedAt := none, prompt := prompt,
    generateVideos := generateVideos, variations := [], videos := [], error := none }

/-- What `processJob` does to the job record and which calls it makes to the
video service, in order.  `setVideo...` events name the variation index of
the `videoJob` they change. -/
inductive Event where
  | setStage (stage : String)
  | setProgress (progress : ℚ)
  | setStatus (status : String)
  | setCompletedAt (time : String)
  | setError (msg : String)
  | pushVariation (variation : Variation)
  | pushVideo (videoJob : VideoJob)
  | setVideoStatus (i : Nat) (status : String)
  | setVideoResult (i : Nat) (videoUrl duration : Option String)
  | setVideoError (i : Nat) (msg : String)
  | createVideo (i : Nat)
  | waitForVideo (i : Nat)
deriving DecidableEq, Repr

/-- The job record together with the history of what was done to it. -/
structure World where
  job : Job
  trace : List Event
deriving DecidableEq, Repr

/-- The assignment `job.stage = stage`. -/
def setStage (stage : String) (w : World) : World :=
  { job := { w.job with stage := stage }, trace := w.trace ++ [Event.setStage stage] }

/-- The assignment `job.progress = progress`. -/
def setProgress (progress : ℚ) (w : World) : World :=
  { job := { w.job with progress := progress }, trace := w.trace ++ [Event.setProgress progress] }

/-- The assignment `job.status = status`. -/
def setStatus (status : String) (w : World) : World :=
  { job := { w.job with status := status }, trace := w.trace ++ [Event.setStatus status] }

/-- The assignment `job.completedAt = new Date().toISOString()`. -/
def setCompletedAt (time : String) (w : World) : World :=
  { job := { w.job with completedAt := some time },
    trace := w.trace ++ [Event.setCompletedAt time] }

/-- The assignment `job.error = error.message`. -/
def setError (msg : String) (w : World) : World :=
  { job := { w.job with error := some msg }, trace := w.trace ++ [Event.setError msg] }

/-- The call `job.variations.push(variation)`. -/
def pushVariation (variation : Variation) (w : World) : World :=
  { job := { w.job with variations := w.job.variations ++ [variation] },
    trace := w.trace ++ [Event.pushVariation variation] }

/-- The call `job.videos.push(videoJob)`. -/
def pushVideo (videoJob : VideoJob) (w : World) : World :=
  { job := { w.job with videos := w.job.videos ++ [videoJob] },
    trace := w.trace ++ [Event.pushVideo videoJob] }

/-- A change of the last element of a list. -/
def modifyLastVideo (f : VideoJob → VideoJob) : List VideoJob → List VideoJob
  | [] => []
  | [v] => [f v]
  | v :: w :: vs => v :: modifyLastVideo f (w :: vs)

/-- A change of the object `videoJob`, which `processJob` holds by reference
and which is the element of `job.videos` pushed last. -/
def modifyVideoJob (f : VideoJob → VideoJob) (event : Event) (w : World) : World :=
  { job := { w.job with videos := modifyLastVideo f w.job.videos },
    trace := w.trace ++ [event] }

/-- A call to the video service, recorded in the trace. -/
def call (event : Event) (w : World) : World :=
  { w with trace := w.trace ++ [event] }

/-- What the body of the loop `for (const variation of variations)` does to
one variation; `written` tells whether `writeFileSync` and `statSync`
returned without throwing. -/
def saveVariation (jobId : String) (written : Bool) (variation : Variation) : Variation :=
  if variation.imageBase64 == "" then
    { variation with imageUrl := some "/images/placeholder.png" }
  else if written then
    { variation with
      imageUrl := some ("/results/" ++ jobId ++ "_" ++ variation.id ++ ".png") }
  else
    { variation with imageUrl := some "/images/placeholder.png" }

/-- The loop `for (const variation of variations)` that saves the images;
`disk k` tells whether the `k`-th file could be written. -/
def saveVariations (jobId : String) (disk : Nat → Bool) :
    List Variation → Nat → World → World
  | [], _, w => w
  | variation :: rest, k, w =>
    saveVariations jobId disk rest (k + 1)
      (pushVariation (saveVariation jobId (disk k) variation) w)

/-- The callback `(status, progress) => { ... }` passed to `waitForVideo`
for variation `i`. -/
def progressCallback (i : Nat) (status : String) (progress : ℚ) (w : World) : World :=
  let w := modifyVideoJob (fun v => { v with status := status }) (Event.setVideoStatus i status) w
  setProgress (min (40 + (i : ℚ) * 20 + progress * 0.2) 95) w

/-- The body of the loop `for (let i = 0; i < variations.length; i++)`;
`submit` is the reply to the submission for this variation and `kling k` the
reply to its status request of attempt `k`. -/
def videoStep (submit : SubmitResponse) (kling : Nat → StatusResponse) (i : Nat)
    (variation : Variation) (w : World) : World :=
  let w := setProgress (40 + (i : ℚ) * 20) w
  let w := call (Event.createVideo i) w
  let videoTask := createVideo submit
  if videoTask.success then
    let videoJob : VideoJob :=
      { id := "video_" ++ toString (i + 1), variationId := variation.id,
        taskId := videoTask.taskId, status := "processing",
        videoUrl := none, duration := none, error := none }
    let w := pushVideo videoJob w
    let w := call (Event.waitForVideo i) w
    let outcome := waitForVideo kling (some (progressCallback i)) w
    match outcome.result with
    | .ok result =>
      if result.success && truthy result.videoUrl then
        outcome.state
          |> modifyVideoJob (fun v => { v with videoUrl := result.videoUrl,
                                               duration := result.duration })
              (Event.setVideoResult i result.videoUrl result.duration)
          |> modifyVideoJob (fun v => { v with status := "completed" })
              (Event.setVideoStatus i "completed")
      else outcome.state
    | .error msg =>
      outcome.state
        |> modifyVideoJob (fun v => { v with status := "failed" })
            (Event.setVideoStatus i "failed")
        |> modifyVideoJob (fun v => { v with error := some msg }) (Event.setVideoError i msg)
  else w

/-- The loop `for (let i = 0; i < variations.length; i++)` over the
variations that remain, `i` being the index of the first of them. -/
def videoLoop (submit : Nat → SubmitResponse) (kling : Nat → Nat → StatusResponse) :
    List Variation → Nat → World → World
  | [], _, w => w
  | variation :: rest, i, w =>
    videoLoop submit kling rest (i + 1) (videoStep (submit i) (kling i) i variation w)

/-- The services and the clock as one run of `processJob` meets them:
`gemini i` answers editing call `i`, `disk k` tells whether image `k` could
be written, `submit i` answers the video submission of variation `i`,
`kling i k` answers status request `k` of that video, and `now` is the
time read when the job ends. -/
structure Services where
  gemini : Nat → GeminiResponse
  disk : Nat → Bool
  submit : Nat → SubmitResponse
  kling : Nat → Nat → StatusResponse
  now : String

/-- The `try` block of `processJob`: the world it leaves and the message of
the error that escaped it, if any.  Every operation awaited in the block
returns a result object or is wrapped in its own `try`, so the block reaches
its end. -/
def processJobTry (env : Services) (jobId imageBase64 prompt : String) (generateVideos : Bool)
    (w : World) : World × Option String :=
  let w := setStage "generating_variations" w
  let w := setProgress 10 w
  let variations := generateVariations env.gemini imageBase64 prompt 3
  let w := saveVariations jobId env.disk variations 0 w
  let w := setProgress 40 w
  let w :=
    if generateVideos then
      let w := setStage "generating_videos" w
      videoLoop env.submit env.kling variations 0 w
    else w
  let w := setStatus "completed" w
  let w := setProgress 100 w
  let w := setCompletedAt env.now w
  (w, none)

/-- The function `processJob`, run on the job record `job`. -/
def processJob (env : Services) (jobId imageBase64 prompt : String) (generateVideos : Bool)
    (job : Job) : World :=
  match processJobTry env jobId imageBase64 prompt generateVideos { job := job, trace := [] } with
  | (w, none) => w
  | (w, some msg) =>
    w |> setStatus "failed" |> setError msg |> setCompletedAt env.now

/-- The handler `POST /process` once the upload is accepted: creates the job
record and runs `processJob` on it. -/
def runJob (env : Services) (jobId imageBase64 prompt createdAt : String)
    (generateVideos : Bool) : World :=
  processJob env jobId imageBase64 prompt generateVideos
    (createJob jobId prompt createdAt generateVideos)

/-- The values assigned to `job.progress`, in order. -/
def progressValues (trace : List Event) : List ℚ :=
  trace.filterMap (fun e => match e with | .setProgress p => some p | _ => none)

/-- The values assigned to `job.stage`, in order. -/
def stageValues (trace : List Event) : List String :=
  trace.filterMap (fun e => match e with | .setStage s => some s | _ => none)

/-- The values assigned to `job.status`, in order. -/
def statusValues (trace : List Event) : List String :=
  trace.filterMap (fun e => match e with | .setStatus s => some s | _ => none)

/-- The values assigned to `job.completedAt`, in order. -/
def completedAtValues (trace : List Event) : List String :=
  trace.filterMap (fun e => match e with | .setCompletedAt t => some t | _ => none)

/-- The variation indices for which `createVideo` was called, in order. -/
def submissions (trace : List Event) : List Nat :=
  trace.filterMap (fun e => match e with | .createVideo i => some i | _ => none)

/-- The variation indices for which `waitForVideo` was called, in order. -/
def polled (trace : List Event) : List Nat :=
  trace.filterMap (fun e => match e with | .waitForVideo i => some i | _ => none)

/-- The number of status checks `waitForVideo` makes against the service
`kling`. -/
def pollCount (kling : Nat → StatusResponse) : Nat :=
  countChecks (waitForVideo kling (none : Option (String → ℚ → Unit → Unit)) ()).log

/-- How `waitForVideo` ends against the service `kling`. -/
def pollResult (kling : Nat → StatusResponse) : Except String StatusResult :=
  (waitForVideo kling (none : Option (String → ℚ → Unit → Unit)) ()).result

/-- The value the callback of variation `i` assigns to `job.progress` at
attempt `k`. -/
def callbackProgress (i k : Nat) : ℚ :=
  min (40 + (i : ℚ) * 20 + estimate k * 0.2) 95

/-- What the callback of variation `i` records at attempt `k`. -/
def callbackEvents (kling : Nat → StatusResponse) (i k : Nat) : List Event :=
  [Event.setVideoStatus i (checkStatus (kling k)).status,
   Event.setProgress (callbackProgress i k)]

/-- What `processJob` records once `waitForVideo` has ended for variation
`i`: the `if (result.success && result.videoUrl)` block or the `catch`. -/
def finishEvents (i : Nat) : Except String StatusResult → List Event
  | .ok result =>
    if result.success && truthy result.videoUrl then
      [Event.setVideoResult i result.videoUrl result.duration,
       Event.setVideoStatus i "completed"]
    else []
  | .error msg => [Event.setVideoStatus i "failed", Event.setVideoError i msg]

/-- The object `videoJob` as it is pushed for variation `i`. -/
def newVideoJob (i : Nat) (variation : Variation) (videoTask : SubmitResult) : VideoJob :=
  { id := "video_" ++ toString (i + 1), variationId := variation.id,
    taskId := videoTask.taskId, status := "processing",
    videoUrl := none, duration := none, error := none }

/-- Everything iteration `i` of the video loop records. -/
def stepEvents (submit : SubmitResponse) (kling : Nat → StatusResponse) (i : Nat)
    (variation : Variation) : List Event :=
  [Event.setProgress (40 + (i : ℚ) * 20), Event.createVideo i] ++
    if (createVideo submit).success then
      [Event.pushVideo (newVideoJob i variation (createVideo submit)), Event.waitForVideo i] ++
        (List.range (pollCount kling)).flatMap (callbackEvents kling i) ++
        finishEvents i (pollResult kling)
    else []

/-- Everything the video loop records for the variations that remain. -/
def loopEvents (submit : Nat → SubmitResponse) (kling : Nat → Nat → StatusResponse) :
    List Variation → Nat → List Event
  | [], _ => []
  | variation :: rest, i =>
    stepEvents (submit i) (kling i) i variation ++ loopEvents submit kling rest (i + 1)

/-- Everything the loop that saves the images records. -/
def saveEvents (jobId : String) (disk : Nat → Bool) : List Variation → Nat → List Event
  | [], _ => []
  | variation :: rest, k =>
    Event.pushVariation (saveVariation jobId (disk k) variation) ::
      saveEvents jobId disk rest (k + 1)

/-- The object `videoJob` of a variation once `waitForVideo` has ended
with `result`: the `if (result.success && result.videoUrl)` block or the
`catch`. -/
def finishVideo (result : Except String StatusResult) (v : VideoJob) : VideoJob :=
  match result with
  | .ok result =>
    if result.success && truthy result.videoUrl then
      { v with videoUrl := result.videoUrl, duration := result.duration, status := "completed" }
    else v
  | .error msg => { v with status := "failed", error := some msg }

/-- The status reported by the last status check `waitForVideo` makes. -/
def lastStatus (kling : Nat → StatusResponse) : String :=
  (checkStatus (kling (pollCount kling - 1))).status

/-- The elements iteration `i` of the video loop adds to `job.videos`. -/
def stepVideos (submit : SubmitResponse) (kling : Nat → StatusResponse) (i : Nat)
    (variation : Variation) : List VideoJob :=
  if (createVideo submit).success then
    [finishVideo (pollResult kling)
      { newVideoJob i variation (createVideo submit) with status := lastStatus kling }]
  else []

/-- The elements the video loop adds to `job.videos` for the variations that
remain. -/
def loopVideos (submit : Nat → SubmitResponse) (kling : Nat → Nat → StatusResponse) :
    List Variation → Nat → List VideoJob
  | [], _ => []
  | variation :: rest, i =>
    stepVideos (submit i) (kling i) i variation ++ loopVideos submit kling rest (i + 1)

/-- A service run in which the video submission of the second variation is
rejected while the other two videos succeed at their first status check. -/
def secondSubmissionFails : Services :=
  { gemini := fun _ => GeminiResponse.ok none,
    disk := fun _ => true,
    submit := fun i =>
      if i = 1 then SubmitResponse.reply false 1200 (some "Account balance not enough") none
      else SubmitResponse.reply true 0 none (some { task_id := "task", task_status := "submitted" }),
    kling := fun _ _ =>
      StatusResponse.reply true 0 "succeed" none
        (some [{ url := some "https://cdn/video.mp4", duration := some "10" }]),
    now := "2025-01-01T00:10:00.000Z" }

/-- A service run in which the video of the first variation is accepted and
then reported `failed` at its second status check, the others succeeding at
once. -/
def firstVideoFails : Services :=
  { gemini := fun _ => GeminiResponse.ok none,
    disk := fun _ => true,
    submit := fun _ =>
      SubmitResponse.reply true 0 none (some { task_id := "task", task_status := "submitted" }),
    kling := fun i k =>
      if i = 0 then
        (if k = 1 then StatusResponse.reply true 0 "failed" (some "Content rejected") none
         else StatusResponse.reply true 0 "processing" none none)
      else
        StatusResponse.reply true 0 "succeed" none
          (some [{ url := some "https://cdn/video.mp4", duration := some "10" }]),
    now := "2025-01-01T00:10:00.000Z" }

/-! ## GET /result/:jobId -/

/-- An element of `variations` in the body of a result response. -/
structure VariationView where
  id : String
  prompt : Option String
  imageUrl : Option String
  success : Bool
deriving DecidableEq, Repr

/-- An element of `videos` in the body of a result response. -/
structure VideoView where
  id : String
  variationId : String
  videoUrl : Option String
  duration : Option String
  status : String
deriving DecidableEq, Repr

/-- The response of `GET /result/:jobId`: the HTTP status and the keys of the
JSON body, a key being `none` when the body does not carry it. -/
structure ResultResponse where
  httpStatus : Nat
  jobId : Option String
  status : Option String
  message : Option String
  createdAt : Option String
  completedAt : Option String
  variations : Option (List VariationView)
  videos : Option (List VideoView)
  error : Option String
deriving DecidableEq, Repr

/-- The projection `v => ({ id, prompt, imageUrl, success })`. -/
def variationView (v : Variation) : VariationView :=
  { id := v.id, prompt := v.prompt, imageUrl := v.imageUrl, success := v.success }

/-- The projection `v => ({ id, variationId, videoUrl, duration, status })`. -/
def videoView (v : VideoJob) : VideoView :=
  { id := v.id, variationId := v.variationId, videoUrl := v.videoUrl,
    duration := v.duration, status := v.status }

/-- The handler of `GET /result/:jobId`; `jobs` is the lookup `jobs.get` of
the registry. -/
def getResult (jobs : String → Option Job) (jobId : String) : ResultResponse :=
  match jobs jobId with
  | none =>
    { httpStatus := 404, jobId := none, status := none, message := none, createdAt := none,
      completedAt := none, variations := none, videos := none,
      error := some "Job not found" }
  | some job =>
    if job.status != "completed" && job.status != "failed" then
      { httpStatus := 200, jobId := some jobId, status := some job.status,
        message := some "Still processing, check back later", createdAt := none,
        completedAt := none, variations := none, videos := none, error := none }
    else
      { httpStatus := 200, jobId := some jobId, status := some job.status, message := none,
        createdAt := some job.createdAt, completedAt := job.completedAt,
        variations := some (job.variations.map variationView),
        videos := some (job.videos.map videoView),
        error := job.error }

/-- A registry holding one job, under the id `job-1`. -/
def registryOf (job : Job) : String → Option Job :=
  fun jobId => if jobId = "job-1" then some job else none

/-- The values taken by the `status` of the objects `videoJob`, in order:
the status each one is pushed with and every value assigned afterwards. -/
def videoStatusValues (trace : List Event) : List String :=
  trace.filterMap (fun e => match e with
    | .pushVideo v => some v.status
    | .setVideoStatus _ s => some s
    | _ => none)

/-- A service run in which every video is accepted, its first status request
is rejected, its second reports `submitted` and its third reports `succeed`
with a video. -/
def statusCheckRejectedOnce : Services :=
  { gemini := fun _ => GeminiResponse.ok none,
    disk := fun _ => true,
    submit := fun _ =>
      SubmitResponse.reply true 0 none (some { task_id := "task", task_status := "submitted" }),
    kling := fun _ k =>
      if k = 0 then StatusResponse.exception
      else if k = 1 then StatusResponse.reply true 0 "submitted" none none
      else
        StatusResponse.reply true 0 "succeed" none
          (some [{ url := some "https://cdn/video.mp4", duration := some "10" }]),
    now := "2025-01-01T00:10:00.000Z" }

/-! ## The signed token -/

/-- The object `header` of `generateJWT`. -/
structure JwtHeader where
  alg : String
  typ : String
deriving DecidableEq, Repr

/-- The object `payload` of `generateJWT`. -/
structure JwtPayload where
  iss : String
  sub : String
  aud : String
  exp : Nat
  nbf : Nat
  iat : Nat
  jti : String
  access_key : String
deriving DecidableEq, Repr

/-- What `generateJWT` takes from the Node.js runtime: `dateNow` is the value
of `Date.now()` in milliseconds, `randomHex` the value of
`crypto.randomBytes(16).toString('hex')`, `stringifyHeader` and
`stringifyPayload` are `JSON.stringify` on the two objects, `base64url s` is
`Buffer.from(s).toString('base64url')`, and `hmacSha256 key data` is
`crypto.createHmac('sha256', key).update(data).digest('base64url')`. -/
structure NodeRuntime where
  dateNow : Nat
  randomHex : String
  stringifyHeader : JwtHeader → String
  stringifyPayload : JwtPayload → String
  base64url : String → String
  hmacSha256 : String → String → String

/-- The method `VideoGenerator.generateJWT` for the keys `accessKey` and
`secretKey` of the generator. -/
def generateJWT (rt : NodeRuntime) (accessKey secretKey : String) : String :=
  let now := rt.dateNow / 1000
  let header : JwtHeader := { alg := "HS256", typ := "JWT" }
  let payload : JwtPayload :=
    { iss := accessKey,
      sub := accessKey,
      aud := "kling-api",
      exp := now + 3600,
      nbf := now,
      iat := now,
      jti := rt.randomHex,
      access_key := accessKey }
  let headerBase64 := rt.base64url (rt.stringifyHeader header)
  let payloadBase64 := rt.base64url (rt.stringifyPayload payload)
  let signature := rt.hmacSha256 secretKey (headerBase64 ++ "." ++ payloadBase64)
  headerBase64 ++ "." ++ payloadBase64 ++ "." ++ signature

end Server

/-! # Theorems -/

namespace Server

/-! ## editImage -/

theorem firstInlineData_eq_none (parts : List Part)
    (h : ∀ p ∈ parts, p.inline_data = none) : firstInlineData parts = none := by
  induction parts with
  | nil => rfl
  | cons p rest ih =>
    have hp : p.inline_data = none := h p (List.mem_cons_self _ _)
    have hrest : ∀ q ∈ rest, q.inline_data = none :=
      fun q hq => h q (List.mem_cons_of_mem _ hq)
    simp [firstInlineData, hp, ih hrest]

/-- C10: `editImage` hands back the original image whenever the service
produced no image: with `success = true` and the informational message when
the reply is successful and no part carries `inline_data`, and with
`success = false` and the error's message when the call fails (a rejected
`fetch` or body parse, or an HTTP error status); every error raised in the
`try` block ends as a returned object, so nothing is thrown. -/
theorem editImage_returns_original (imageBase64 : String) (prompt : Option String) :
    (∀ parts : Option (List Part), (∀ p ∈ parts.getD [], p.inline_data = none) →
      editImage imageBase64 prompt (.ok parts) =
        { success := true, imageBase64 := some imageBase64,
          message := some "Using original image (Gemini did not return an image)",
          error := none }) ∧
    (∀ msg : String,
      editImage imageBase64 prompt (.exception msg) =
        { success := false, imageBase64 := some imageBase64, message := none,
          error := some msg }) ∧
    (∀ (status : Nat) (errorText : String),
      editImage imageBase64 prompt (.httpError status errorText) =
        { success := false, imageBase64 := some imageBase64, message := none,
          error := some ("API error: " ++ toString status ++ " - " ++ errorText) }) ∧
    (∀ (response : GeminiResponse) (msg : String),
      editImageTry imageBase64 response = .error msg →
        editImage imageBase64 prompt response =
          { success := false, imageBase64 := some imageBase64, message := none,
            error := some msg }) := by
  refine ⟨?_, ?_, ?_, ?_⟩
  · intro parts h
    simp [editImage, editImageTry, firstInlineData_eq_none _ h]
  · intro msg
    simp [editImage, editImageTry]
  · intro status errorText
    simp [editImage, editImageTry]
  · intro response msg h
    simp [editImage, h]

/-- A text-only reply, a rejected call and an HTTP 500 all give back the
input image `"abc"`. -/
theorem editImage_returns_original_witness :
    editImage "abc" (some "p") (.ok (some [{ inline_data := none, text := some "hello" }])) =
        { success := true, imageBase64 := some "abc",
          message := some "Using original image (Gemini did not return an image)",
          error := none } ∧
    editImage "abc" (some "p") (.exception "socket hang up") =
        { success := false, imageBase64 := some "abc", message := none,
          error := some "socket hang up" } :=
  ⟨(editImage_returns_original "abc" (some "p")).1
      (some [{ inline_data := none, text := some "hello" }]) (by decide),
   (editImage_returns_original "abc" (some "p")).2.1 "socket hang up"⟩

/-! ## generateVariations -/

theorem generateVariationsLoop_eq (gemini : Nat → GeminiResponse) (imageBase64 basePrompt : String)
    (remaining i : Nat) (variations : List Variation) :
    generateVariationsLoop gemini imageBase64 basePrompt remaining i variations =
      variations ++ (List.range' i remaining).map
        (fun j => variationOf imageBase64 basePrompt j (gemini j)) := by
  induction remaining generalizing i variations with
  | zero => simp [generateVariationsLoop]
  | succ n ih =>
    simp [generateVariationsLoop, ih, List.range'_succ]

theorem generateVariations_eq (gemini : Nat → GeminiResponse) (imageBase64 basePrompt : String)
    (count : Nat) :
    generateVariations gemini imageBase64 basePrompt count =
      (List.range count).map (fun j => variationOf imageBase64 basePrompt j (gemini j)) := by
  simp [generateVariations, generateVariationsLoop_eq, List.range_eq_range']

theorem generateVariations_length (gemini : Nat → GeminiResponse)
    (imageBase64 basePrompt : String) (count : Nat) :
    (generateVariations gemini imageBase64 basePrompt count).length = count := by
  simp [generateVariations_eq]

theorem generateVariations_getElem? (gemini : Nat → GeminiResponse)
    (imageBase64 basePrompt : String) (count i : Nat) (hi : i < count) :
    (generateVariations gemini imageBase64 basePrompt count)[i]? =
      some (variationOf imageBase64 basePrompt i (gemini i)) := by
  simp [generateVariations_eq, List.getElem?_range hi]

theorem variationOf_of_error (imageBase64 basePrompt : String) (i : Nat)
    (response : GeminiResponse) (msg : String)
    (h : editImageTry imageBase64 response = .error msg) :
    (variationOf imageBase64 basePrompt i response).success = false ∧
    (variationOf imageBase64 basePrompt i response).imageBase64 = imageBase64 ∧
    (variationOf imageBase64 basePrompt i response).message = some msg := by
  simp [variationOf, editImage, h, orElseStr, orElseOpt, truthy]

/-- C4: for `count ≤ 3`, `generateVariations` returns exactly `count` entries;
entry `i` has id `var_(i+1)` and the `i`-th preset prompt; when editing call
`i` failed with message `msg`, entry `i` has `success = false`, the original
image and `msg` as its message; and entry `i` is the same for every other
behaviour of the service that gives call `i` the same reply, so a failure of
one call leaves the other entries as they are. -/
theorem generateVariations_entries (gemini : Nat → GeminiResponse)
    (imageBase64 basePrompt : String) (count : Nat) (hcount : count ≤ 3) :
    (generateVariations gemini imageBase64 basePrompt count).length = count ∧
    ∀ i, i < count →
      ∃ v p, (generateVariations gemini imageBase64 basePrompt count)[i]? = some v ∧
        v.id = "var_" ++ toString (i + 1) ∧
        (prompts basePrompt)[i]? = some p ∧ v.prompt = some p ∧
        (∀ msg, editImageTry imageBase64 (gemini i) = .error msg →
          v.success = false ∧ v.imageBase64 = imageBase64 ∧ v.message = some msg) ∧
        (∀ gemini2 : Nat → GeminiResponse, gemini2 i = gemini i →
          (generateVariations gemini2 imageBase64 basePrompt count)[i]? = some v) := by
  refine ⟨generateVariations_length _ _ _ _, ?_⟩
  intro i hi
  have hi3 : i < (prompts basePrompt).length := by
    simp only [prompts, List.length_cons, List.length_nil]; omega
  refine ⟨variationOf imageBase64 basePrompt i (gemini i), (prompts basePrompt)[i],
    generateVariations_getElem? _ _ _ _ _ hi, rfl, List.getElem?_eq_getElem hi3, ?_, ?_, ?_⟩
  · simp [variationOf, List.getElem?_eq_getElem hi3]
  · intro msg h
    exact variationOf_of_error _ _ _ _ _ h
  · intro gemini2 h2
    rw [generateVariations_getElem? _ _ _ _ _ hi, h2]

/-- Three editing calls of which the second is rejected: three entries, and
the second is the failed one with the original image. -/
theorem generateVariations_entries_witness :
    (generateVariations
        (fun i => if i = 1 then .exception "boom" else .ok none) "img" "patio" 3).length = 3 ∧
    ∃ v, (generateVariations
        (fun i => if i = 1 then .exception "boom" else .ok none) "img" "patio" 3)[1]? = some v ∧
      v.id = "var_2" ∧ v.success = false ∧ v.imageBase64 = "img" ∧ v.message = some "boom" := by
  obtain ⟨hlen, h⟩ := generateVariations_entries
    (fun i => if i = 1 then .exception "boom" else .ok none) "img" "patio" 3 (by decide)
  obtain ⟨v, p, hv, hid, -, -, herr, -⟩ := h 1 (by decide)
  obtain ⟨h1, h2, h3⟩ := herr "boom" rfl
  exact ⟨hlen, v, hv, by rw [hid]; decide, h1, h2, h3⟩

/-! ## waitForVideo -/

theorem countChecks_append (l₁ l₂ : List PollEvent) :
    countChecks (l₁ ++ l₂) = countChecks l₁ + countChecks l₂ := by
  simp [countChecks]

theorem countWaits_append (l₁ l₂ : List PollEvent) :
    countWaits (l₁ ++ l₂) = countWaits l₁ + countWaits l₂ := by
  simp [countWaits]

theorem pollLog_succ (n : Nat) : pollLog (n + 1) = pollLog n ++ attemptLog n := by
  simp [pollLog, List.range_succ]

theorem countChecks_pollLog (n : Nat) : countChecks (pollLog n) = n := by
  induction n with
  | zero => rfl
  | succ n ih =>
    rw [pollLog_succ, countChecks_append, ih]
    by_cases h : n > 0 <;> simp [attemptLog, h, countChecks]

theorem countWaits_pollLog (n : Nat) : countWaits (pollLog n) = n - 1 := by
  induction n with
  | zero => rfl
  | succ n ih =>
    rw [pollLog_succ, countWaits_append, ih]
    by_cases h : n > 0
    · simp [attemptLog, h, countWaits]; omega
    · have : n = 0 := by omega
      subst this
      simp [attemptLog, countWaits]

theorem waitLoop_log_attempt (i : Nat) (log : List PollEvent) :
    (if i > 0 then log ++ [PollEvent.wait pollInterval] else log) ++ [PollEvent.check i] =
      log ++ attemptLog i := by
  by_cases h : i > 0 <;> simp [attemptLog, h]

/-- Attempts that report no terminal status are passed over one by one. -/
theorem waitLoop_skip {σ : Type} (kling : Nat → StatusResponse)
    (cb : Option (String → ℚ → σ → σ)) (d r i : Nat) (s : σ) (log : List PollEvent)
    (h : ∀ j, i ≤ j → j < i + d → terminalStatus (checkStatus (kling j)).status = false) :
    waitLoop kling cb (d + r) i s log =
      waitLoop kling cb r (i + d)
        ((List.range' i d).foldl (fun s j => callbackAt cb (checkStatus (kling j)) j s) s)
        (log ++ (List.range' i d).flatMap attemptLog) := by
  induction d generalizing i s log with
  | zero => simp
  | succ d ih =>
    have hi := h i (le_refl _) (by omega)
    simp only [terminalStatus, Bool.or_eq_false_iff, beq_eq_false_iff_ne, ne_eq] at hi
    have hrest : ∀ j, i + 1 ≤ j → j < i + 1 + d →
        terminalStatus (checkStatus (kling j)).status = false :=
      fun j h1 h2 => h j (by omega) (by omega)
    have e : d + 1 + r = (d + r) + 1 := by omega
    rw [e, waitLoop]
    simp only [hi.1, hi.2, if_false, waitLoop_log_attempt]
    rw [ih (i + 1) _ _ hrest]
    simp [List.range'_succ, Nat.add_assoc, Nat.add_comm 1 d]

/-- The outcome of `waitForVideo` when no attempt reports a terminal status. -/
theorem waitForVideo_of_no_terminal {σ : Type} (kling : Nat → StatusResponse)
    (cb : Option (String → ℚ → σ → σ)) (s : σ)
    (h : ∀ j, j < maxAttempts → terminalStatus (checkStatus (kling j)).status = false) :
    waitForVideo kling cb s =
      { result := .error "Timeout waiting for video",
        state := pollState kling cb maxAttempts s,
        log := pollLog maxAttempts } := by
  have := waitLoop_skip kling cb maxAttempts 0 0 s [] (fun j _ h2 => h j (by omega))
  simp only [Nat.add_zero, Nat.zero_add, List.nil_append] at this
  rw [waitForVideo, this, waitLoop]
  simp [pollState, pollLog, List.range_eq_range']

/-- The outcome of `waitForVideo` when attempt `k` is the first to report a
terminal status. -/
theorem waitForVideo_of_first_terminal {σ : Type} (kling : Nat → StatusResponse)
    (cb : Option (String → ℚ → σ → σ)) (s : σ) (k : Nat) (hk : k < maxAttempts)
    (hbefore : ∀ j, j < k → terminalStatus (checkStatus (kling j)).status = false)
    (hat : terminalStatus (checkStatus (kling k)).status = true) :
    waitForVideo kling cb s =
      { result :=
          if (checkStatus (kling k)).status = "succeed" then .ok (checkStatus (kling k))
          else .error (orElseStr (checkStatus (kling k)).statusMessage "Video generation failed"),
        state := pollState kling cb (k + 1) s,
        log := pollLog (k + 1) } := by
  have := waitLoop_skip kling cb k (maxAttempts - k) 0 s [] (fun j _ h2 => hbefore j (by omega))
  have e : k + (maxAttempts - k) = maxAttempts := by omega
  simp only [e, Nat.zero_add, List.nil_append] at this
  obtain ⟨r, hr⟩ : ∃ r, maxAttempts - k = r + 1 := ⟨maxAttempts - k - 1, by omega⟩
  rw [waitForVideo, this, hr, waitLoop]
  simp only [waitLoop_log_attempt]
  simp only [terminalStatus, Bool.or_eq_true, beq_iff_eq] at hat
  have hstate : callbackAt cb (checkStatus (kling k)) k
      ((List.range' 0 k).foldl (fun s j => callbackAt cb (checkStatus (kling j)) j s) s) =
      pollState kling cb (k + 1) s := by
    simp [pollState, List.range_succ, List.range_eq_range']
  have hlog : (List.range' 0 k).flatMap attemptLog ++ attemptLog k = pollLog (k + 1) := by
    simp [pollLog, List.range_succ, List.range_eq_range']
  rw [hstate, hlog]
  by_cases hs : (checkStatus (kling k)).status = "succeed"
  · simp [hs]
  · have hf : (checkStatus (kling k)).status = "failed" := by
      rcases hat with h1 | h1
      · exact absurd h1 hs
      · exact h1
    simp [hf]

/-- Either some attempt below `maxAttempts` is the first to report a terminal
status, or none does. -/
theorem first_terminal_or_none (kling : Nat → StatusResponse) :
    (∃ k, k < maxAttempts ∧
      (∀ j, j < k → terminalStatus (checkStatus (kling j)).status = false) ∧
      terminalStatus (checkStatus (kling k)).status = true) ∨
    (∀ j, j < maxAttempts → terminalStatus (checkStatus (kling j)).status = false) := by
  by_cases h : ∃ k, k < maxAttempts ∧ terminalStatus (checkStatus (kling k)).status = true
  · left
    refine ⟨Nat.find h, (Nat.find_spec h).1, ?_, (Nat.find_spec h).2⟩
    intro j hj
    have hmin := Nat.find_min h hj
    have hlt : j < maxAttempts := lt_trans hj (Nat.find_spec h).1
    cases hv : terminalStatus (checkStatus (kling j)).status
    · rfl
    · exact absurd ⟨hlt, hv⟩ hmin
  · right
    intro j hj
    cases hv : terminalStatus (checkStatus (kling j)).status
    · rfl
    · exact absurd ⟨j, hj, hv⟩ h

/-- The log of `waitForVideo` is that of its first `n` attempts for some
`n` between 1 and `maxAttempts`. -/
theorem waitForVideo_log {σ : Type} (kling : Nat → StatusResponse)
    (cb : Option (String → ℚ → σ → σ)) (s : σ) :
    ∃ n, 1 ≤ n ∧ n ≤ maxAttempts ∧ (waitForVideo kling cb s).log = pollLog n ∧
      (waitForVideo kling cb s).state = pollState kling cb n s := by
  rcases first_terminal_or_none kling with ⟨k, hk, hb, ha⟩ | h
  · refine ⟨k + 1, by omega, by omega, ?_, ?_⟩ <;>
      rw [waitForVideo_of_first_terminal kling cb s k hk hb ha]
  · refine ⟨maxAttempts, by decide, le_refl _, ?_, ?_⟩ <;>
      rw [waitForVideo_of_no_terminal kling cb s h]

/-- The log of the first `n + 1` attempts written out: the first check, then
for each later attempt a wait of 5000 ms followed by its check. -/
theorem pollLog_explicit (n : Nat) :
    pollLog (n + 1) =
      PollEvent.check 0 ::
        (List.range n).flatMap (fun j => [PollEvent.wait 5000, PollEvent.check (j + 1)]) := by
  induction n with
  | zero => rfl
  | succ n ih =>
    rw [pollLog_succ, ih]
    simp [List.range_succ, attemptLog, pollInterval]

/-- C6: whatever the status checks report, `waitForVideo` makes at least one
and at most 180 status checks, and its log is the first check followed, for
every further check, by a wait of 5000 ms and then that check; when none of
the 180 checks reports `succeed` or `failed` (a check that ends as
`{ success: false, status: 'error' }` counts as such), it makes exactly 180
checks and 179 waits of 5000 ms and then throws `Timeout waiting for video`. -/
theorem waitForVideo_at_most_180_checks {σ : Type} (kling : Nat → StatusResponse)
    (cb : Option (String → ℚ → σ → σ)) (s : σ) :
    (∃ n, n ≤ 180 ∧ (waitForVideo kling cb s).log = pollLog n ∧
      countChecks (waitForVideo kling cb s).log = n ∧
      countWaits (waitForVideo kling cb s).log = n - 1 ∧
      1 ≤ n ∧
      (waitForVideo kling cb s).log =
        PollEvent.check 0 ::
          (List.range (n - 1)).flatMap
            (fun j => [PollEvent.wait 5000, PollEvent.check (j + 1)])) ∧
    ((∀ j, j < 180 → (checkStatus (kling j)).status ≠ "succeed" ∧
        (checkStatus (kling j)).status ≠ "failed") →
      (waitForVideo kling cb s).log = pollLog 180 ∧
      countChecks (waitForVideo kling cb s).log = 180 ∧
      countWaits (waitForVideo kling cb s).log = 179 ∧
      (waitForVideo kling cb s).result = .error "Timeout waiting for video" ∧
      (waitForVideo kling cb s).log =
        PollEvent.check 0 ::
          (List.range 179).flatMap
            (fun j => [PollEvent.wait 5000, PollEvent.check (j + 1)])) := by
  constructor
  · obtain ⟨n, h1, hn, hlog, -⟩ := waitForVideo_log kling cb s
    obtain ⟨m, rfl⟩ : ∃ m, n = m + 1 := ⟨n - 1, by omega⟩
    exact ⟨m + 1, hn, hlog, by rw [hlog, countChecks_pollLog],
      by rw [hlog, countWaits_pollLog], h1, by rw [hlog, pollLog_explicit]; rfl⟩
  · intro h
    have h2 : ∀ j, j < maxAttempts → terminalStatus (checkStatus (kling j)).status = false := by
      intro j hj
      obtain ⟨h1, h2⟩ := h j hj
      simp [terminalStatus, h1, h2]
    rw [waitForVideo_of_no_terminal kling cb s h2]
    exact ⟨rfl, countChecks_pollLog _, countWaits_pollLog _, rfl, pollLog_explicit 179⟩

/-- A service whose every status request is rejected: the first check, then
179 times a wait of 5000 ms and a check, then the timeout. -/
theorem waitForVideo_at_most_180_checks_witness :
    (waitForVideo (fun _ => StatusResponse.exception) (none : Option (String → ℚ → Unit → Unit))
        ()).log =
      PollEvent.check 0 ::
        (List.range 179).flatMap (fun j => [PollEvent.wait 5000, PollEvent.check (j + 1)]) ∧
    (waitForVideo (fun _ => StatusResponse.exception) (none : Option (String → ℚ → Unit → Unit))
        ()).log.take 5 =
      [PollEvent.check 0, PollEvent.wait 5000, PollEvent.check 1, PollEvent.wait 5000,
       PollEvent.check 2] ∧
    countChecks (waitForVideo (fun _ => StatusResponse.exception)
        (none : Option (String → ℚ → Unit → Unit)) ()).log = 180 ∧
    countWaits (waitForVideo (fun _ => StatusResponse.exception)
        (none : Option (String → ℚ → Unit → Unit)) ()).log = 179 ∧
    (waitForVideo (fun _ => StatusResponse.exception)
        (none : Option (String → ℚ → Unit → Unit)) ()).result =
      .error "Timeout waiting for video" := by
  obtain ⟨-, h2, h3, h4, h5⟩ :=
    (waitForVideo_at_most_180_checks (fun _ => StatusResponse.exception)
      (none : Option (String → ℚ → Unit → Unit)) ()).2 (fun _ _ => by decide)
  exact ⟨h5, by rw [h5]; decide, h2, h3, h4⟩

/-- C7: when attempt `k < 180` is the first to report `succeed` or `failed`,
`waitForVideo` stops after exactly `k + 1` checks.  On `succeed` it returns
the result of that check.  On `failed` it throws the status message of the
service, or `Video generation failed` when the service gave no message (a
missing or empty `task_status_msg`). -/
theorem waitForVideo_first_terminal {σ : Type} (kling : Nat → StatusResponse)
    (cb : Option (String → ℚ → σ → σ)) (s : σ) (k : Nat) (hk : k < 180)
    (hbefore : ∀ j, j < k → (checkStatus (kling j)).status ≠ "succeed" ∧
      (checkStatus (kling j)).status ≠ "failed") :
    ((checkStatus (kling k)).status = "succeed" →
      (waitForVideo kling cb s).result = .ok (checkStatus (kling k)) ∧
      (waitForVideo kling cb s).log = pollLog (k + 1) ∧
      countChecks (waitForVideo kling cb s).log = k + 1) ∧
    ((checkStatus (kling k)).status = "failed" →
      (waitForVideo kling cb s).log = pollLog (k + 1) ∧
      countChecks (waitForVideo kling cb s).log = k + 1 ∧
      (∀ m, (checkStatus (kling k)).statusMessage = some m → m ≠ "" →
        (waitForVideo kling cb s).result = .error m) ∧
      ((checkStatus (kling k)).statusMessage = none ∨
          (checkStatus (kling k)).statusMessage = some "" →
        (waitForVideo kling cb s).result = .error "Video generation failed")) := by
  have hb : ∀ j, j < k → terminalStatus (checkStatus (kling j)).status = false := by
    intro j hj
    obtain ⟨h1, h2⟩ := hbefore j hj
    simp [terminalStatus, h1, h2]
  constructor
  · intro hs
    have ha : terminalStatus (checkStatus (kling k)).status = true := by
      simp [terminalStatus, hs]
    rw [waitForVideo_of_first_terminal kling cb s k hk hb ha]
    exact ⟨by simp [hs], rfl, countChecks_pollLog _⟩
  · intro hf
    have ha : terminalStatus (checkStatus (kling k)).status = true := by
      simp [terminalStatus, hf]
    rw [waitForVideo_of_first_terminal kling cb s k hk hb ha]
    refine ⟨rfl, countChecks_pollLog _, ?_, ?_⟩
    · intro m hm hne
      simp [hf, hm, orElseStr, hne]
    · intro hm
      rcases hm with hm | hm <;> simp [hf, hm, orElseStr]

/-- Two `processing` reports, then `failed` with the message `quota`: three
checks and the error `quota`. -/
theorem waitForVideo_first_terminal_witness :
    (waitForVideo
        (fun i => if i = 2 then StatusResponse.reply true 0 "failed" (some "quota") none
          else StatusResponse.reply true 0 "processing" none none)
        (none : Option (String → ℚ → Unit → Unit)) ()).result = .error "quota" ∧
    countChecks (waitForVideo
        (fun i => if i = 2 then StatusResponse.reply true 0 "failed" (some "quota") none
          else StatusResponse.reply true 0 "processing" none none)
        (none : Option (String → ℚ → Unit → Unit)) ()).log = 3 := by
  have h := (waitForVideo_first_terminal
    (fun i => if i = 2 then StatusResponse.reply true 0 "failed" (some "quota") none
      else StatusResponse.reply true 0 "processing" none none)
    (none : Option (String → ℚ → Unit → Unit)) () 2 (by decide)
    (fun j hj => by
      have hj2 : j ≠ 2 := by omega
      simp only [hj2, if_false]
      decide)).2 (by decide)
  exact ⟨h.2.2.1 "quota" (by decide) (by decide), h.2.1⟩

/-! ## The poll loop seen from `processJob` -/

theorem waitForVideo_eq_poll {σ : Type} (kling : Nat → StatusResponse)
    (cb : Option (String → ℚ → σ → σ)) (s : σ) :
    waitForVideo kling cb s =
      { result := pollResult kling,
        state := pollState kling cb (pollCount kling) s,
        log := pollLog (pollCount kling) } := by
  rcases first_terminal_or_none kling with ⟨k, hk, hb, ha⟩ | h
  · rw [waitForVideo_of_first_terminal kling cb s k hk hb ha, pollResult, pollCount,
      waitForVideo_of_first_terminal kling none () k hk hb ha]
    simp [countChecks_pollLog]
  · rw [waitForVideo_of_no_terminal kling cb s h, pollResult, pollCount,
      waitForVideo_of_no_terminal kling none () h]
    simp [countChecks_pollLog]

theorem pollCount_pos (kling : Nat → StatusResponse) : 1 ≤ pollCount kling := by
  obtain ⟨n, h1, -, hlog, -⟩ :=
    waitForVideo_log kling (none : Option (String → ℚ → Unit → Unit)) ()
  rw [pollCount, hlog, countChecks_pollLog]
  exact h1

theorem pollCount_le (kling : Nat → StatusResponse) : pollCount kling ≤ 180 := by
  obtain ⟨n, -, h2, hlog, -⟩ :=
    waitForVideo_log kling (none : Option (String → ℚ → Unit → Unit)) ()
  rw [pollCount, hlog, countChecks_pollLog]
  exact h2

theorem pollState_succ {σ : Type} (kling : Nat → StatusResponse)
    (cb : Option (String → ℚ → σ → σ)) (n : Nat) (s : σ) :
    pollState kling cb (n + 1) s =
      callbackAt cb (checkStatus (kling n)) n (pollState kling cb n s) := by
  simp [pollState, List.range_succ]

theorem pollState_trace (kling : Nat → StatusResponse) (i n : Nat) (w : World) :
    (pollState kling (some (progressCallback i)) n w).trace =
      w.trace ++ (List.range n).flatMap (callbackEvents kling i) := by
  induction n with
  | zero => simp [pollState]
  | succ n ih =>
    rw [pollState_succ]
    simp [callbackAt, progressCallback, setProgress, modifyVideoJob, ih, List.range_succ,
      callbackEvents, callbackProgress]

/-! ## The trace of `processJob` -/

theorem videoStep_trace (submit : SubmitResponse) (kling : Nat → StatusResponse) (i : Nat)
    (variation : Variation) (w : World) :
    (videoStep submit kling i variation w).trace =
      w.trace ++ stepEvents submit kling i variation := by
  unfold videoStep stepEvents
  by_cases hs : (createVideo submit).success = true
  · simp only [hs, if_true, waitForVideo_eq_poll]
    cases hr : pollResult kling with
    | error msg =>
      simp [finishEvents, modifyVideoJob, pollState_trace, call, pushVideo, setProgress,
        newVideoJob]
    | ok result =>
      by_cases hv : (result.success && truthy result.videoUrl) = true
      · simp [finishEvents, hv, modifyVideoJob, pollState_trace, call, pushVideo, setProgress,
          newVideoJob]
      · simp [finishEvents, hv, pollState_trace, call, pushVideo, setProgress, newVideoJob]
  · simp [hs, call, setProgress]

theorem videoLoop_trace (submit : Nat → SubmitResponse) (kling : Nat → Nat → StatusResponse)
    (variations : List Variation) (i : Nat) (w : World) :
    (videoLoop submit kling variations i w).trace =
      w.trace ++ loopEvents submit kling variations i := by
  induction variations generalizing i w with
  | nil => simp [videoLoop, loopEvents]
  | cons v rest ih => simp [videoLoop, loopEvents, ih, videoStep_trace]

theorem saveVariations_trace (jobId : String) (disk : Nat → Bool) (variations : List Variation)
    (k : Nat) (w : World) :
    (saveVariations jobId disk variations k w).trace =
      w.trace ++ saveEvents jobId disk variations k := by
  induction variations generalizing k w with
  | nil => simp [saveVariations, saveEvents]
  | cons v rest ih => simp [saveVariations, saveEvents, ih, pushVariation]

theorem generateVariations_three (gemini : Nat → GeminiResponse)
    (imageBase64 basePrompt : String) :
    generateVariations gemini imageBase64 basePrompt 3 =
      [variationOf imageBase64 basePrompt 0 (gemini 0),
       variationOf imageBase64 basePrompt 1 (gemini 1),
       variationOf imageBase64 basePrompt 2 (gemini 2)] := by
  rw [generateVariations_eq]
  rfl

/-- The trace of a run of `processJob`. -/
theorem processJob_trace (env : Services) (jobId imageBase64 prompt : String)
    (generateVideos : Bool) (job : Job) :
    (processJob env jobId imageBase64 prompt generateVideos job).trace =
      [Event.setStage "generating_variations", Event.setProgress 10] ++
        saveEvents jobId env.disk (generateVariations env.gemini imageBase64 prompt 3) 0 ++
        [Event.setProgress 40] ++
        (if generateVideos then
          Event.setStage "generating_videos" ::
            loopEvents env.submit env.kling
              (generateVariations env.gemini imageBase64 prompt 3) 0
         else []) ++
        [Event.setStatus "completed", Event.setProgress 100, Event.setCompletedAt env.now] := by
  cases generateVideos <;>
    simp [processJob, processJobTry, setCompletedAt, setProgress, setStatus, setStage,
      videoLoop_trace, saveVariations_trace]

/-! ## Projections of the trace -/

theorem progressValues_append (l₁ l₂ : List Event) :
    progressValues (l₁ ++ l₂) = progressValues l₁ ++ progressValues l₂ := by
  simp [progressValues]

theorem stageValues_append (l₁ l₂ : List Event) :
    stageValues (l₁ ++ l₂) = stageValues l₁ ++ stageValues l₂ := by
  simp [stageValues]

theorem statusValues_append (l₁ l₂ : List Event) :
    statusValues (l₁ ++ l₂) = statusValues l₁ ++ statusValues l₂ := by
  simp [statusValues]

theorem completedAtValues_append (l₁ l₂ : List Event) :
    completedAtValues (l₁ ++ l₂) = completedAtValues l₁ ++ completedAtValues l₂ := by
  simp [completedAtValues]

theorem submissions_append (l₁ l₂ : List Event) :
    submissions (l₁ ++ l₂) = submissions l₁ ++ submissions l₂ := by
  simp [submissions]

theorem polled_append (l₁ l₂ : List Event) :
    polled (l₁ ++ l₂) = polled l₁ ++ polled l₂ := by
  simp [polled]

theorem projections_saveEvents (jobId : String) (disk : Nat → Bool)
    (variations : List Variation) (k : Nat) :
    progressValues (saveEvents jobId disk variations k) = [] ∧
    stageValues (saveEvents jobId disk variations k) = [] ∧
    statusValues (saveEvents jobId disk variations k) = [] ∧
    completedAtValues (saveEvents jobId disk variations k) = [] ∧
    submissions (saveEvents jobId disk variations k) = [] ∧
    polled (saveEvents jobId disk variations k) = [] := by
  induction variations generalizing k with
  | nil => simp [saveEvents, progressValues, stageValues, statusValues, completedAtValues,
      submissions, polled]
  | cons v rest ih =>
    have h := ih (k + 1)
    simp only [progressValues, stageValues, statusValues, completedAtValues, submissions,
      polled] at h ⊢
    simp [saveEvents, h]

theorem projections_callbacks (kling : Nat → StatusResponse) (i : Nat) (l : List Nat) :
    progressValues (l.flatMap (callbackEvents kling i)) = l.map (callbackProgress i) ∧
    stageValues (l.flatMap (callbackEvents kling i)) = [] ∧
    statusValues (l.flatMap (callbackEvents kling i)) = [] ∧
    completedAtValues (l.flatMap (callbackEvents kling i)) = [] ∧
    submissions (l.flatMap (callbackEvents kling i)) = [] ∧
    polled (l.flatMap (callbackEvents kling i)) = [] := by
  induction l with
  | nil => simp [progressValues, stageValues, statusValues, completedAtValues,
      submissions, polled]
  | cons k rest ih =>
    simp only [progressValues, stageValues, statusValues, completedAtValues, submissions,
      polled] at ih ⊢
    simp [callbackEvents, ih]

theorem projections_finishEvents (i : Nat) (r : Except String StatusResult) :
    progressValues (finishEvents i r) = [] ∧
    stageValues (finishEvents i r) = [] ∧
    statusValues (finishEvents i r) = [] ∧
    completedAtValues (finishEvents i r) = [] ∧
    submissions (finishEvents i r) = [] ∧
    polled (finishEvents i r) = [] := by
  cases r with
  | error msg => simp [finishEvents, progressValues, stageValues, statusValues,
      completedAtValues, submissions, polled]
  | ok result =>
    by_cases hv : (result.success && truthy result.videoUrl) = true <;>
      simp [finishEvents, hv, progressValues, stageValues, statusValues,
        completedAtValues, submissions, polled]

/-- The values iteration `i` of the video loop assigns to `job.progress`. -/
theorem progressValues_stepEvents (submit : SubmitResponse) (kling : Nat → StatusResponse)
    (i : Nat) (variation : Variation) :
    progressValues (stepEvents submit kling i variation) =
      (40 + (i : ℚ) * 20) ::
        (if (createVideo submit).success then
          (List.range (pollCount kling)).map (callbackProgress i) else []) := by
  unfold stepEvents
  by_cases hs : (createVideo submit).success = true
  · simp only [hs, if_true, progressValues_append, (projections_callbacks kling i _).1,
      (projections_finishEvents i _).1]
    simp [progressValues]
  · simp [hs, progressValues]

/-- Iteration `i` of the video loop submits variation `i` once, polls it when
the submission succeeded, and touches neither the stage, the status nor the
completion time of the job. -/
theorem projections_stepEvents (submit : SubmitResponse) (kling : Nat → StatusResponse)
    (i : Nat) (variation : Variation) :
    stageValues (stepEvents submit kling i variation) = [] ∧
    statusValues (stepEvents submit kling i variation) = [] ∧
    completedAtValues (stepEvents submit kling i variation) = [] ∧
    submissions (stepEvents submit kling i variation) = [i] ∧
    polled (stepEvents submit kling i variation) =
      (if (createVideo submit).success then [i] else []) := by
  unfold stepEvents
  obtain ⟨-, c2, c3, c4, c5, c6⟩ := projections_callbacks kling i (List.range (pollCount kling))
  obtain ⟨-, f2, f3, f4, f5, f6⟩ := projections_finishEvents i (pollResult kling)
  by_cases hs : (createVideo submit).success = true
  · simp only [hs, if_true, stageValues_append, statusValues_append, completedAtValues_append,
      submissions_append, polled_append, c2, c3, c4, c5, c6, f2, f3, f4, f5, f6]
    simp [stageValues, statusValues, completedAtValues, submissions, polled]
  · simp [hs, stageValues, statusValues, completedAtValues, submissions, polled]

/-! ## Progress arithmetic -/

theorem estimate_nonneg (k : Nat) : 0 ≤ estimate k := by
  unfold estimate
  have : (0 : ℚ) ≤ (k : ℚ) := Nat.cast_nonneg k
  exact le_min (by positivity) (by norm_num)

theorem estimate_le (k : Nat) : estimate k ≤ 99 := by
  unfold estimate
  exact min_le_right _ _

theorem estimate_mono {k k2 : Nat} (h : k ≤ k2) : estimate k ≤ estimate k2 := by
  unfold estimate
  have hc : (k : ℚ) ≤ (k2 : ℚ) := Nat.cast_le.mpr h
  exact min_le_min (by linarith) (le_refl _)

theorem callbackProgress_mono (i : Nat) {k k2 : Nat} (h : k ≤ k2) :
    callbackProgress i k ≤ callbackProgress i k2 := by
  unfold callbackProgress
  have := estimate_mono h
  exact min_le_min (by linarith) (le_refl _)

theorem callbackProgress_lower (i k : Nat) (hi : i ≤ 2) :
    40 + (i : ℚ) * 20 ≤ callbackProgress i k := by
  unfold callbackProgress
  have h0 := estimate_nonneg k
  have hc : (i : ℚ) ≤ 2 := by exact_mod_cast hi
  exact le_min (by linarith) (by linarith)

theorem callbackProgress_upper (i k : Nat) :
    callbackProgress i k < 40 + ((i : ℚ) + 1) * 20 ∧ callbackProgress i k ≤ 95 := by
  unfold callbackProgress
  have h99 := estimate_le k
  exact ⟨lt_of_le_of_lt (min_le_left _ _) (by linarith), min_le_right _ _⟩

theorem pairwise_callbackProgress (i n : Nat) :
    List.Pairwise (· ≤ ·) ((List.range n).map (callbackProgress i)) := by
  rw [List.pairwise_map]
  exact (List.pairwise_lt_range n).imp (fun h => callbackProgress_mono i (Nat.le_of_lt h))

/-- Within iteration `i ≤ 2` of the video loop the values assigned to
`job.progress` never decrease and stay in the band of that iteration. -/
theorem stepEvents_progress (submit : SubmitResponse) (kling : Nat → StatusResponse)
    (i : Nat) (variation : Variation) (hi : i ≤ 2) :
    List.Pairwise (· ≤ ·) (progressValues (stepEvents submit kling i variation)) ∧
    ∀ p ∈ progressValues (stepEvents submit kling i variation),
      40 + (i : ℚ) * 20 ≤ p ∧ p < 40 + ((i : ℚ) + 1) * 20 ∧ p ≤ 95 := by
  rw [progressValues_stepEvents]
  have hc : (i : ℚ) ≤ 2 := by exact_mod_cast hi
  have hmem : ∀ p ∈ (if (createVideo submit).success then
      (List.range (pollCount kling)).map (callbackProgress i) else []),
      40 + (i : ℚ) * 20 ≤ p ∧ p < 40 + ((i : ℚ) + 1) * 20 ∧ p ≤ 95 := by
    intro p hp
    by_cases hs : (createVideo submit).success = true
    · simp only [hs, if_true, List.mem_map] at hp
      obtain ⟨k, -, rfl⟩ := hp
      exact ⟨callbackProgress_lower i k hi, callbackProgress_upper i k⟩
    · simp [hs] at hp
  constructor
  · rw [List.pairwise_cons]
    refine ⟨fun p hp => (hmem p hp).1, ?_⟩
    by_cases hs : (createVideo submit).success = true
    · simp only [hs, if_true]
      exact pairwise_callbackProgress i _
    · simp [hs]
  · intro p hp
    rw [List.mem_cons] at hp
    rcases hp with rfl | hp
    · exact ⟨le_refl _, by linarith, by linarith⟩
    · exact hmem p hp

/-! ## Monotone progress -/

theorem pairwise_bands (P0 P1 P2 : List ℚ)
    (h0 : List.Pairwise (· ≤ ·) P0) (h1 : List.Pairwise (· ≤ ·) P1)
    (h2 : List.Pairwise (· ≤ ·) P2)
    (b0 : ∀ p ∈ P0, 40 ≤ p ∧ p ≤ 60) (b1 : ∀ p ∈ P1, 60 ≤ p ∧ p ≤ 80)
    (b2 : ∀ p ∈ P2, 80 ≤ p ∧ p ≤ 95) :
    List.Pairwise (· ≤ ·) ((0 : ℚ) :: 10 :: 40 :: (P0 ++ (P1 ++ P2)) ++ [100]) := by
  have hall : ∀ p ∈ P0 ++ (P1 ++ P2), (40 : ℚ) ≤ p ∧ p ≤ 95 := by
    intro p hp
    simp only [List.mem_append] at hp
    rcases hp with hp | hp | hp
    · have := b0 p hp; constructor <;> linarith
    · have := b1 p hp; constructor <;> linarith
    · have := b2 p hp; constructor <;> linarith
  have hmid : List.Pairwise (· ≤ ·) (P0 ++ (P1 ++ P2)) := by
    rw [List.pairwise_append]
    refine ⟨h0, ?_, ?_⟩
    · rw [List.pairwise_append]
      exact ⟨h1, h2, fun a ha b hb => by have := b1 a ha; have := b2 b hb; linarith⟩
    · intro a ha b hb
      have := b0 a ha
      simp only [List.mem_append] at hb
      rcases hb with hb | hb
      · have := b1 b hb; linarith
      · have := b2 b hb; linarith
  have htail : List.Pairwise (· ≤ ·) ((P0 ++ (P1 ++ P2)) ++ [100]) := by
    rw [List.pairwise_append]
    refine ⟨hmid, List.pairwise_singleton _ _, ?_⟩
    intro a ha b hb
    have := hall a ha
    simp only [List.mem_singleton] at hb
    subst hb
    linarith
  have hmem : ∀ p ∈ (P0 ++ (P1 ++ P2)) ++ [100], (40 : ℚ) ≤ p := by
    intro p hp
    rw [List.mem_append] at hp
    rcases hp with hp | hp
    · exact (hall p hp).1
    · simp only [List.mem_singleton] at hp
      subst hp
      norm_num
  simp only [List.cons_append, List.pairwise_cons, List.mem_cons]
  refine ⟨?_, ?_, ?_, htail⟩
  · rintro p (rfl | rfl | hp)
    · norm_num
    · norm_num
    · have := hmem p hp; linarith
  · rintro p (rfl | hp)
    · norm_num
    · have := hmem p hp; linarith
  · intro p hp
    exact hmem p hp


theorem loopEvents_three (submit : Nat → SubmitResponse) (kling : Nat → Nat → StatusResponse)
    (v0 v1 v2 : Variation) :
    loopEvents submit kling [v0, v1, v2] 0 =
      stepEvents (submit 0) (kling 0) 0 v0 ++
        (stepEvents (submit 1) (kling 1) 1 v1 ++ stepEvents (submit 2) (kling 2) 2 v2) := by
  simp [loopEvents]

/-- The values assigned to `job.progress` by a run of `processJob`. -/
theorem progressValues_processJob (env : Services) (jobId imageBase64 prompt : String)
    (generateVideos : Bool) (job : Job) :
    ∃ P0 P1 P2 : List ℚ,
      progressValues (processJob env jobId imageBase64 prompt generateVideos job).trace =
        10 :: 40 :: (if generateVideos then P0 ++ (P1 ++ P2) else []) ++ [100] ∧
      List.Pairwise (· ≤ ·) P0 ∧ List.Pairwise (· ≤ ·) P1 ∧ List.Pairwise (· ≤ ·) P2 ∧
      (∀ p ∈ P0, 40 ≤ p ∧ p < 60 ∧ p ≤ 95) ∧ (∀ p ∈ P1, 60 ≤ p ∧ p < 80 ∧ p ≤ 95) ∧
      (∀ p ∈ P2, 80 ≤ p ∧ p < 100 ∧ p ≤ 95) := by
  obtain ⟨s0, b0⟩ := stepEvents_progress (env.submit 0) (env.kling 0) 0
    (variationOf imageBase64 prompt 0 (env.gemini 0)) (by decide)
  obtain ⟨s1, b1⟩ := stepEvents_progress (env.submit 1) (env.kling 1) 1
    (variationOf imageBase64 prompt 1 (env.gemini 1)) (by decide)
  obtain ⟨s2, b2⟩ := stepEvents_progress (env.submit 2) (env.kling 2) 2
    (variationOf imageBase64 prompt 2 (env.gemini 2)) (by decide)
  refine ⟨_, _, _, ?_, s0, s1, s2, ?_, ?_, ?_⟩
  · rw [processJob_trace, generateVariations_three, loopEvents_three]
    have hsave := (projections_saveEvents jobId env.disk
      [variationOf imageBase64 prompt 0 (env.gemini 0),
       variationOf imageBase64 prompt 1 (env.gemini 1),
       variationOf imageBase64 prompt 2 (env.gemini 2)] 0).1
    have h1 : progressValues [Event.setStage "generating_variations", Event.setProgress 10] =
        [10] := by simp [progressValues]
    have h2 : progressValues [Event.setProgress 40] = [40] := by simp [progressValues]
    have h3 : progressValues [Event.setStatus "completed", Event.setProgress 100,
        Event.setCompletedAt env.now] = [100] := by simp [progressValues]
    cases generateVideos
    · simp only [progressValues_append, hsave, h1, h2, h3]
      simp [progressValues]
    · have h4 : ∀ l, progressValues (Event.setStage "generating_videos" :: l) =
          progressValues l := by intro l; simp [progressValues]
      simp only [progressValues_append, hsave, h1, h2, h3, h4, if_true]
      simp
  · intro p hp; have := b0 p hp; norm_num at this; exact this
  · intro p hp; have := b1 p hp; norm_num at this; exact this
  · intro p hp; have := b2 p hp; norm_num at this; exact this

/-- C1: in every run of `processJob` on a freshly created job (any replies
of the editing service, the disk and the video service, `generateVideos` true
or false) the values taken by `job.progress`, from the initial 0 through every
assignment up to the final one, never decrease: each value is at most every
later one. -/
theorem progress_nondecreasing (env : Services) (jobId imageBase64 prompt createdAt : String)
    (generateVideos : Bool) :
    (createJob jobId prompt createdAt generateVideos).progress = 0 ∧
    List.Pairwise (· ≤ ·)
      ((createJob jobId prompt createdAt generateVideos).progress ::
        progressValues (runJob env jobId imageBase64 prompt createdAt generateVideos).trace) := by
  refine ⟨rfl, ?_⟩
  obtain ⟨P0, P1, P2, htrace, s0, s1, s2, b0, b1, b2⟩ :=
    progressValues_processJob env jobId imageBase64 prompt generateVideos
      (createJob jobId prompt createdAt generateVideos)
  rw [runJob, htrace]
  show List.Pairwise (· ≤ ·) ((0 : ℚ) :: (10 :: 40 ::
    (if generateVideos = true then P0 ++ (P1 ++ P2) else []) ++ [100]))
  cases generateVideos
  · exact pairwise_bands [] [] [] List.Pairwise.nil List.Pairwise.nil List.Pairwise.nil
      (by simp) (by simp) (by simp)
  · exact pairwise_bands P0 P1 P2 s0 s1 s2
      (fun p hp => ⟨(b0 p hp).1, le_of_lt (b0 p hp).2.1⟩)
      (fun p hp => ⟨(b1 p hp).1, le_of_lt (b1 p hp).2.1⟩)
      (fun p hp => ⟨(b2 p hp).1, (b2 p hp).2.2⟩)

/-! ## The end of a job -/

theorem processJob_final (env : Services) (jobId imageBase64 prompt : String)
    (generateVideos : Bool) (job : Job) :
    (processJob env jobId imageBase64 prompt generateVideos job).job.status = "completed" ∧
    (processJob env jobId imageBase64 prompt generateVideos job).job.progress = 100 ∧
    (processJob env jobId imageBase64 prompt generateVideos job).job.completedAt =
      some env.now := by
  simp [processJob, processJobTry, setCompletedAt, setProgress, setStatus]

theorem projections_loopEvents_three (submit : Nat → SubmitResponse)
    (kling : Nat → Nat → StatusResponse) (v0 v1 v2 : Variation) :
    stageValues (loopEvents submit kling [v0, v1, v2] 0) = [] ∧
    statusValues (loopEvents submit kling [v0, v1, v2] 0) = [] ∧
    completedAtValues (loopEvents submit kling [v0, v1, v2] 0) = [] ∧
    submissions (loopEvents submit kling [v0, v1, v2] 0) = [0, 1, 2] := by
  obtain ⟨a1, a2, a3, a4, -⟩ := projections_stepEvents (submit 0) (kling 0) 0 v0
  obtain ⟨b1, b2, b3, b4, -⟩ := projections_stepEvents (submit 1) (kling 1) 1 v1
  obtain ⟨c1, c2, c3, c4, -⟩ := projections_stepEvents (submit 2) (kling 2) 2 v2
  rw [loopEvents_three]
  simp only [stageValues_append, statusValues_append, completedAtValues_append,
    submissions_append, a1, a2, a3, a4, b1, b2, b3, b4, c1, c2, c3, c4]
  simp

/-- What a run of `processJob` with videos assigns to `job.completedAt` and
`job.status`, and the submissions it makes. -/
theorem projections_runJob (env : Services) (jobId imageBase64 prompt createdAt : String) :
    completedAtValues (runJob env jobId imageBase64 prompt createdAt true).trace = [env.now] ∧
    statusValues (runJob env jobId imageBase64 prompt createdAt true).trace = ["completed"] ∧
    submissions (runJob env jobId imageBase64 prompt createdAt true).trace = [0, 1, 2] := by
  obtain ⟨-, -, s3, s4, s5, -⟩ := projections_saveEvents jobId env.disk
    [variationOf imageBase64 prompt 0 (env.gemini 0),
     variationOf imageBase64 prompt 1 (env.gemini 1),
     variationOf imageBase64 prompt 2 (env.gemini 2)] 0
  obtain ⟨-, l2, l3, l4⟩ := projections_loopEvents_three env.submit env.kling
    (variationOf imageBase64 prompt 0 (env.gemini 0))
    (variationOf imageBase64 prompt 1 (env.gemini 1))
    (variationOf imageBase64 prompt 2 (env.gemini 2))
  have c : ∀ l, completedAtValues (Event.setStage "generating_videos" :: l) =
      completedAtValues l := by intro l; simp [completedAtValues]
  have t : ∀ l, statusValues (Event.setStage "generating_videos" :: l) =
      statusValues l := by intro l; simp [statusValues]
  have u : ∀ l, submissions (Event.setStage "generating_videos" :: l) =
      submissions l := by intro l; simp [submissions]
  rw [runJob, processJob_trace, generateVariations_three]
  simp only [completedAtValues_append, statusValues_append, submissions_append, if_true,
    c, t, u, s3, s4, s5, l2, l3, l4]
  simp [completedAtValues, statusValues, submissions]

/-- C2: with `generateVideos = true`, whatever the three submissions and
their polls return (success, a failed submission, a failure reported by the
service, a timeout), the job ends with status `completed`, progress 100 and a
completion time; `job.completedAt` is assigned exactly once and `job.status`
only ever receives `completed` (never `failed`); and `createVideo` is called
for the variations 0, 1, 2 in this order. -/
theorem processJob_videos_completes (env : Services)
    (jobId imageBase64 prompt createdAt : String) :
    (runJob env jobId imageBase64 prompt createdAt true).job.status = "completed" ∧
    (runJob env jobId imageBase64 prompt createdAt true).job.progress = 100 ∧
    (runJob env jobId imageBase64 prompt createdAt true).job.completedAt = some env.now ∧
    completedAtValues (runJob env jobId imageBase64 prompt createdAt true).trace = [env.now] ∧
    statusValues (runJob env jobId imageBase64 prompt createdAt true).trace = ["completed"] ∧
    submissions (runJob env jobId imageBase64 prompt createdAt true).trace = [0, 1, 2] := by
  obtain ⟨h1, h2, h3⟩ := processJob_final env jobId imageBase64 prompt true
    (createJob jobId prompt createdAt true)
  exact ⟨h1, h2, h3, projections_runJob env jobId imageBase64 prompt createdAt⟩

/-! ## The video list -/

theorem modifyLastVideo_append_singleton (f : VideoJob → VideoJob) (vs : List VideoJob)
    (v : VideoJob) : modifyLastVideo f (vs ++ [v]) = vs ++ [f v] := by
  induction vs with
  | nil => rfl
  | cons a rest ih =>
    cases rest with
    | nil => rfl
    | cons b rest2 =>
      simp only [List.cons_append] at ih ⊢
      rw [modifyLastVideo, ih]

theorem pollState_videos (kling : Nat → StatusResponse) (i n : Nat) (w : World)
    (vs : List VideoJob) (v : VideoJob) (h : w.job.videos = vs ++ [v]) :
    ∃ st, (pollState kling (some (progressCallback i)) n w).job.videos =
      vs ++ [{ v with status := st }] := by
  induction n with
  | zero => exact ⟨v.status, by simp [pollState, h]⟩
  | succ n ih =>
    obtain ⟨st, hst⟩ := ih
    refine ⟨(checkStatus (kling n)).status, ?_⟩
    rw [pollState_succ]
    simp [callbackAt, progressCallback, setProgress, modifyVideoJob, hst,
      modifyLastVideo_append_singleton]

theorem pollState_videos_succ (kling : Nat → StatusResponse) (i n : Nat) (w : World)
    (vs : List VideoJob) (v : VideoJob) (h : w.job.videos = vs ++ [v]) :
    (pollState kling (some (progressCallback i)) (n + 1) w).job.videos =
      vs ++ [{ v with status := (checkStatus (kling n)).status }] := by
  obtain ⟨st, hst⟩ := pollState_videos kling i n w vs v h
  rw [pollState_succ]
  simp [callbackAt, progressCallback, setProgress, modifyVideoJob, hst,
    modifyLastVideo_append_singleton]

theorem videoStep_videos (submit : SubmitResponse) (kling : Nat → StatusResponse) (i : Nat)
    (variation : Variation) (w : World) :
    (videoStep submit kling i variation w).job.videos =
      w.job.videos ++ stepVideos submit kling i variation := by
  unfold videoStep stepVideos
  by_cases hs : (createVideo submit).success = true
  · simp only [hs, if_true, waitForVideo_eq_poll]
    obtain ⟨n, hn⟩ : ∃ n, pollCount kling = n + 1 :=
      ⟨pollCount kling - 1, by have := pollCount_pos kling; omega⟩
    have hv := pollState_videos_succ kling i n
      (call (Event.waitForVideo i)
        (pushVideo (newVideoJob i variation (createVideo submit))
          (call (Event.createVideo i) (setProgress (40 + (i : ℚ) * 20) w))))
      w.job.videos (newVideoJob i variation (createVideo submit))
      (by simp [call, pushVideo, setProgress])
    have hl : lastStatus kling = (checkStatus (kling n)).status := by
      simp [lastStatus, hn]
    rw [hn, hl]
    simp only [newVideoJob] at hv ⊢
    cases hr : pollResult kling with
    | error msg =>
      simp [finishVideo, modifyVideoJob, hv, modifyLastVideo_append_singleton]
    | ok result =>
      by_cases hu : (result.success && truthy result.videoUrl) = true
      · simp [finishVideo, hu, modifyVideoJob, hv, modifyLastVideo_append_singleton]
      · simp [finishVideo, hu, hv]
  · simp [hs, call, setProgress]

theorem videoLoop_videos (submit : Nat → SubmitResponse) (kling : Nat → Nat → StatusResponse)
    (variations : List Variation) (i : Nat) (w : World) :
    (videoLoop submit kling variations i w).job.videos =
      w.job.videos ++ loopVideos submit kling variations i := by
  induction variations generalizing i w with
  | nil => simp [videoLoop, loopVideos]
  | cons v rest ih => simp [videoLoop, loopVideos, ih, videoStep_videos]

theorem saveVariations_videos (jobId : String) (disk : Nat → Bool)
    (variations : List Variation) (k : Nat) (w : World) :
    (saveVariations jobId disk variations k w).job.videos = w.job.videos := by
  induction variations generalizing k w with
  | nil => simp [saveVariations]
  | cons v rest ih => simp [saveVariations, ih, pushVariation]

/-- The list `job.videos` at the end of a run of `processJob`. -/
theorem processJob_videos (env : Services) (jobId imageBase64 prompt : String)
    (generateVideos : Bool) (job : Job) :
    (processJob env jobId imageBase64 prompt generateVideos job).job.videos =
      job.videos ++
        (if generateVideos then
          loopVideos env.submit env.kling (generateVariations env.gemini imageBase64 prompt 3) 0
         else []) := by
  cases generateVideos <;>
    simp [processJob, processJobTry, setCompletedAt, setProgress, setStatus, setStage,
      videoLoop_videos, saveVariations_videos]

/-- C3: a job created with `generateVideos = false` and run by `processJob`
ends with status `completed`, progress 100 and an empty `videos` list; its
stage is `generating_variations` at creation and the only value ever assigned
to `job.stage` is `generating_variations`, so the stage is never
`generating_videos`; no call is made to the video service. -/
theorem processJob_without_videos (env : Services)
    (jobId imageBase64 prompt createdAt : String) :
    (runJob env jobId imageBase64 prompt createdAt false).job.status = "completed" ∧
    (runJob env jobId imageBase64 prompt createdAt false).job.progress = 100 ∧
    (runJob env jobId imageBase64 prompt createdAt false).job.videos = [] ∧
    (createJob jobId prompt createdAt false).stage = "generating_variations" ∧
    stageValues (runJob env jobId imageBase64 prompt createdAt false).trace =
      ["generating_variations"] ∧
    "generating_videos" ∉ stageValues (runJob env jobId imageBase64 prompt createdAt false).trace ∧
    (runJob env jobId imageBase64 prompt createdAt false).job.stage = "generating_variations" ∧
    submissions (runJob env jobId imageBase64 prompt createdAt false).trace = [] := by
  obtain ⟨h1, h2, -⟩ := processJob_final env jobId imageBase64 prompt false
    (createJob jobId prompt createdAt false)
  have hv := processJob_videos env jobId imageBase64 prompt false
    (createJob jobId prompt createdAt false)
  obtain ⟨-, s2, -, -, s5, -⟩ := projections_saveEvents jobId env.disk
    (generateVariations env.gemini imageBase64 prompt 3) 0
  have hstage : stageValues (runJob env jobId imageBase64 prompt createdAt false).trace =
      ["generating_variations"] := by
    rw [runJob, processJob_trace]
    simp only [stageValues_append, s2]
    simp [stageValues]
  have hsub : submissions (runJob env jobId imageBase64 prompt createdAt false).trace = [] := by
    rw [runJob, processJob_trace]
    simp only [submissions_append, s5]
    simp [submissions]
  have hfield : ∀ (vs : List Variation) (k : Nat) (w : World),
      (saveVariations jobId env.disk vs k w).job.stage = w.job.stage := by
    intro vs
    induction vs with
    | nil => intro k w; simp [saveVariations]
    | cons v rest ih => intro k w; simp [saveVariations, ih, pushVariation]
  refine ⟨h1, h2, ?_, rfl, hstage, ?_, ?_, hsub⟩
  · rw [runJob, hv]
    simp [createJob]
  · rw [hstage]
    decide
  · simp [runJob, processJob, processJobTry, setCompletedAt, setProgress, setStatus, setStage,
      hfield]

/-! ## Failed videos -/

theorem loopVideos_three (submit : Nat → SubmitResponse) (kling : Nat → Nat → StatusResponse)
    (v0 v1 v2 : Variation) :
    loopVideos submit kling [v0, v1, v2] 0 =
      stepVideos (submit 0) (kling 0) 0 v0 ++
        (stepVideos (submit 1) (kling 1) 1 v1 ++ stepVideos (submit 2) (kling 2) 2 v2) := by
  simp [loopVideos]

theorem polled_loopEvents_three (submit : Nat → SubmitResponse)
    (kling : Nat → Nat → StatusResponse) (v0 v1 v2 : Variation) :
    polled (loopEvents submit kling [v0, v1, v2] 0) =
      (if (createVideo (submit 0)).success then [0] else []) ++
        ((if (createVideo (submit 1)).success then [1] else []) ++
          (if (createVideo (submit 2)).success then [2] else [])) := by
  rw [loopEvents_three]
  simp only [polled_append, (projections_stepEvents (submit 0) (kling 0) 0 v0).2.2.2.2,
    (projections_stepEvents (submit 1) (kling 1) 1 v1).2.2.2.2,
    (projections_stepEvents (submit 2) (kling 2) 2 v2).2.2.2.2]

/-- The calls of `waitForVideo` in a run of `processJob` with videos. -/
theorem polled_runJob (env : Services) (jobId imageBase64 prompt createdAt : String) :
    polled (runJob env jobId imageBase64 prompt createdAt true).trace =
      (if (createVideo (env.submit 0)).success then [0] else []) ++
        ((if (createVideo (env.submit 1)).success then [1] else []) ++
          (if (createVideo (env.submit 2)).success then [2] else [])) := by
  obtain ⟨-, -, -, -, -, s6⟩ := projections_saveEvents jobId env.disk
    [variationOf imageBase64 prompt 0 (env.gemini 0),
     variationOf imageBase64 prompt 1 (env.gemini 1),
     variationOf imageBase64 prompt 2 (env.gemini 2)] 0
  have u : ∀ l, polled (Event.setStage "generating_videos" :: l) = polled l := by
    intro l; simp [polled]
  rw [runJob, processJob_trace, generateVariations_three]
  simp only [polled_append, if_true, u, s6, polled_loopEvents_three]
  simp [polled]

/-- The list `job.videos` at the end of a run of `processJob` with videos. -/
theorem videos_runJob (env : Services) (jobId imageBase64 prompt createdAt : String) :
    (runJob env jobId imageBase64 prompt createdAt true).job.videos =
      stepVideos (env.submit 0) (env.kling 0) 0 (variationOf imageBase64 prompt 0 (env.gemini 0)) ++
        (stepVideos (env.submit 1) (env.kling 1) 1
            (variationOf imageBase64 prompt 1 (env.gemini 1)) ++
          stepVideos (env.submit 2) (env.kling 2) 2
            (variationOf imageBase64 prompt 2 (env.gemini 2))) := by
  rw [runJob, processJob_videos, generateVariations_three, loopVideos_three]
  simp [createJob]

theorem stepVideos_of_failed_wait (submit : SubmitResponse) (kling : Nat → StatusResponse)
    (i : Nat) (variation : Variation) (msg : String)
    (hsub : (createVideo submit).success = true) (hwait : pollResult kling = .error msg) :
    stepVideos submit kling i variation =
      [{ id := "video_" ++ toString (i + 1), variationId := variation.id,
         taskId := (createVideo submit).taskId, status := "failed",
         videoUrl := none, duration := none, error := some msg }] := by
  simp [stepVideos, hsub, hwait, finishVideo, newVideoJob]

theorem pollResult_of_no_terminal (kling : Nat → StatusResponse)
    (h : ∀ k, k < 180 → (checkStatus (kling k)).status ≠ "succeed" ∧
      (checkStatus (kling k)).status ≠ "failed") :
    pollResult kling = .error "Timeout waiting for video" := by
  have h2 : ∀ j, j < maxAttempts → terminalStatus (checkStatus (kling j)).status = false := by
    intro j hj
    obtain ⟨h1, h2⟩ := h j hj
    simp [terminalStatus, h1, h2]
  rw [pollResult, waitForVideo_of_no_terminal kling none () h2]

theorem variationOf_id (imageBase64 basePrompt : String) (i : Nat) (response : GeminiResponse) :
    (variationOf imageBase64 basePrompt i response).id = "var_" ++ toString (i + 1) := rfl

/-- C8: when the video submission of variation `i` succeeds and
`waitForVideo` then fails with message `msg` (a failure reported by the
service, or the timeout after 180 polls without a terminal status, in which
case `msg` is `Timeout waiting for video`), the call of `waitForVideo` made
by `processJob` throws `msg`, the entry of that variation in `job.videos`
ends with status `failed` and error `msg`, and every later variation is still
submitted, and polled when its submission succeeds. -/
theorem failed_wait_marks_video_failed (env : Services)
    (jobId imageBase64 prompt createdAt : String) (i : Nat) (hi : i < 3) (msg : String)
    (hsub : (createVideo (env.submit i)).success = true)
    (hwait : pollResult (env.kling i) = .error msg) :
    (∀ w : World,
      (waitForVideo (env.kling i) (some (progressCallback i)) w).result = .error msg) ∧
    (∃ v ∈ (runJob env jobId imageBase64 prompt createdAt true).job.videos,
      v.id = "video_" ++ toString (i + 1) ∧ v.variationId = "var_" ++ toString (i + 1) ∧
      v.status = "failed" ∧ v.error = some msg) ∧
    ((∀ k, k < 180 → (checkStatus (env.kling i k)).status ≠ "succeed" ∧
        (checkStatus (env.kling i k)).status ≠ "failed") →
      msg = "Timeout waiting for video") ∧
    (∀ j, i < j → j < 3 →
      j ∈ submissions (runJob env jobId imageBase64 prompt createdAt true).trace ∧
      ((createVideo (env.submit j)).success = true →
        j ∈ polled (runJob env jobId imageBase64 prompt createdAt true).trace ∧
        1 ≤ pollCount (env.kling j))) := by
  refine ⟨fun w => by rw [waitForVideo_eq_poll, hwait], ?_, ?_, ?_⟩
  · have hstep := stepVideos_of_failed_wait (env.submit i) (env.kling i) i
      (variationOf imageBase64 prompt i (env.gemini i)) msg hsub hwait
    refine ⟨{ id := "video_" ++ toString (i + 1),
              variationId := (variationOf imageBase64 prompt i (env.gemini i)).id,
              taskId := (createVideo (env.submit i)).taskId, status := "failed",
              videoUrl := none, duration := none, error := some msg },
      ?_, rfl, variationOf_id imageBase64 prompt i (env.gemini i), rfl, rfl⟩
    rw [videos_runJob]
    interval_cases i <;> simp [hstep]
  · intro h
    have := pollResult_of_no_terminal (env.kling i) h
    rw [hwait] at this
    exact Except.error.inj this
  · intro j hij hj
    rw [(projections_runJob env jobId imageBase64 prompt createdAt).2.2, polled_runJob]
    refine ⟨by interval_cases j <;> simp, fun hs => ⟨?_, pollCount_pos _⟩⟩
    interval_cases j <;> simp_all

/-- The first video is accepted and reported `failed` with the message
`Content rejected` at its second check: its entry ends `failed` with that
message, and the two later variations are submitted and polled. -/
theorem failed_wait_marks_video_failed_witness :
    (∃ v ∈ (runJob firstVideoFails "job" "img" "patio" "t0" true).job.videos,
      v.id = "video_1" ∧ v.variationId = "var_1" ∧
      v.status = "failed" ∧ v.error = some "Content rejected") ∧
    2 ∈ polled (runJob firstVideoFails "job" "img" "patio" "t0" true).trace := by
  have h := failed_wait_marks_video_failed firstVideoFails "job" "img" "patio" "t0" 0
    (by decide) "Content rejected" (by decide) rfl
  exact ⟨h.2.1, ((h.2.2.2 2 (by decide) (by decide)).2 (by decide)).1⟩

/-! ## Failed submissions -/

theorem stepVideos_ids (submit : SubmitResponse) (kling : Nat → StatusResponse) (i : Nat)
    (variation : Variation) :
    ∀ v ∈ stepVideos submit kling i variation,
      v.id = "video_" ++ toString (i + 1) ∧ v.variationId = variation.id := by
  intro v hv
  unfold stepVideos at hv
  by_cases hs : (createVideo submit).success = true
  · simp only [hs, if_true, List.mem_singleton] at hv
    subst hv
    cases hr : pollResult kling with
    | error msg => simp [finishVideo, newVideoJob]
    | ok result =>
      by_cases hu : (result.success && truthy result.videoUrl) = true
      · simp [finishVideo, hu, newVideoJob]
      · simp [finishVideo, hu, newVideoJob]
  · simp [hs] at hv

theorem stepVideos_of_failed_submission (submit : SubmitResponse)
    (kling : Nat → StatusResponse) (i : Nat) (variation : Variation)
    (hsub : (createVideo submit).success = false) :
    stepVideos submit kling i variation = [] := by
  simp [stepVideos, hsub]

/-- C9, the claim as stated fails: the submission for the second variation is
rejected with `Account balance not enough`, and after the run `job.videos`
holds only `video_1` and `video_3`, with no entry for `var_2`, failed or
otherwise. -/
theorem failed_submission_not_recorded :
    (createVideo (secondSubmissionFails.submit 1)).success = false ∧
    (createVideo (secondSubmissionFails.submit 1)).error = some "Account balance not enough" ∧
    ((runJob secondSubmissionFails "job" "img" "patio" "t0" true).job.videos.map
      (fun v => (v.id, v.variationId, v.status))) =
        [("video_1", "var_1", "completed"), ("video_3", "var_3", "completed")] ∧
    ¬ ∃ v ∈ (runJob secondSubmissionFails "job" "img" "patio" "t0" true).job.videos,
        v.variationId = "var_2" ∧ v.status = "failed" ∧
        v.error = some "Account balance not enough" := by
  decide

/-- C9 as amended: when the video submission of variation `i` fails, no
`videoJob` is created for it: after the run `job.videos` has no entry with
the id `video_(i+1)` or the variation id `var_(i+1)`, `waitForVideo` is not
called for it, and every later variation is still submitted. -/
theorem failed_submission_creates_no_video (env : Services)
    (jobId imageBase64 prompt createdAt : String) (i : Nat) (hi : i < 3)
    (hsub : (createVideo (env.submit i)).success = false) :
    (∀ v ∈ (runJob env jobId imageBase64 prompt createdAt true).job.videos,
      v.id ≠ "video_" ++ toString (i + 1) ∧ v.variationId ≠ "var_" ++ toString (i + 1)) ∧
    i ∉ polled (runJob env jobId imageBase64 prompt createdAt true).trace ∧
    (∀ j, i < j → j < 3 →
      j ∈ submissions (runJob env jobId imageBase64 prompt createdAt true).trace) := by
  have h0 := stepVideos_ids (env.submit 0) (env.kling 0) 0
    (variationOf imageBase64 prompt 0 (env.gemini 0))
  have h1 := stepVideos_ids (env.submit 1) (env.kling 1) 1
    (variationOf imageBase64 prompt 1 (env.gemini 1))
  have h2 := stepVideos_ids (env.submit 2) (env.kling 2) 2
    (variationOf imageBase64 prompt 2 (env.gemini 2))
  have hnil := stepVideos_of_failed_submission (env.submit i) (env.kling i) i
    (variationOf imageBase64 prompt i (env.gemini i)) hsub
  have e01 : "video_" ++ toString (0 + 1) ≠ "video_" ++ toString (1 + 1) := by decide
  have e02 : "video_" ++ toString (0 + 1) ≠ "video_" ++ toString (2 + 1) := by decide
  have e12 : "video_" ++ toString (1 + 1) ≠ "video_" ++ toString (2 + 1) := by decide
  have f01 : "var_" ++ toString (0 + 1) ≠ "var_" ++ toString (1 + 1) := by decide
  have f02 : "var_" ++ toString (0 + 1) ≠ "var_" ++ toString (2 + 1) := by decide
  have f12 : "var_" ++ toString (1 + 1) ≠ "var_" ++ toString (2 + 1) := by decide
  refine ⟨?_, ?_, ?_⟩
  · intro v hv
    rw [videos_runJob, List.mem_append, List.mem_append] at hv
    interval_cases i
    · rw [hnil] at hv
      rcases hv with hv | hv | hv
      · simp at hv
      · obtain ⟨a, b⟩ := h1 v hv
        rw [a, b, variationOf_id]
        exact ⟨e01.symm, f01.symm⟩
      · obtain ⟨a, b⟩ := h2 v hv
        rw [a, b, variationOf_id]
        exact ⟨e02.symm, f02.symm⟩
    · rw [hnil] at hv
      rcases hv with hv | hv | hv
      · obtain ⟨a, b⟩ := h0 v hv
        rw [a, b, variationOf_id]
        exact ⟨e01, f01⟩
      · simp at hv
      · obtain ⟨a, b⟩ := h2 v hv
        rw [a, b, variationOf_id]
        exact ⟨e12.symm, f12.symm⟩
    · rw [hnil] at hv
      rcases hv with hv | hv | hv
      · obtain ⟨a, b⟩ := h0 v hv
        rw [a, b, variationOf_id]
        exact ⟨e02, f02⟩
      · obtain ⟨a, b⟩ := h1 v hv
        rw [a, b, variationOf_id]
        exact ⟨e12, f12⟩
      · simp at hv
  · rw [polled_runJob]
    interval_cases i <;> simp [hsub]
  · intro j hij hj
    rw [(projections_runJob env jobId imageBase64 prompt createdAt).2.2]
    interval_cases j <;> simp

/-- The second submission is rejected: no entry `video_2`, no poll of
variation 1, and variation 2 is still submitted. -/
theorem failed_submission_creates_no_video_witness :
    (∀ v ∈ (runJob secondSubmissionFails "job" "img" "patio" "t0" true).job.videos,
      v.id ≠ "video_2" ∧ v.variationId ≠ "var_2") ∧
    1 ∉ polled (runJob secondSubmissionFails "job" "img" "patio" "t0" true).trace ∧
    2 ∈ submissions (runJob secondSubmissionFails "job" "img" "patio" "t0" true).trace := by
  have h := failed_submission_creates_no_video secondSubmissionFails "job" "img" "patio" "t0" 1
    (by decide) (by decide)
  exact ⟨h.1, h.2.1, h.2.2 2 (by decide) (by decide)⟩

/-! ## The result query -/

/-- C5: for a registered job whose status is neither `completed` nor `failed`
the result query answers with the job id, the status and the message
`Still processing, check back later` and nothing else: no `variations` and no
`videos` key.  For a registered job that is `completed` or `failed` it
answers with one entry per element of `job.variations` and of `job.videos`,
in the same order: entry `k` of `variations` carries the `id`, `prompt`,
`imageUrl` and `success` of element `k`, and entry `k` of `videos` carries the
`id`, `variationId`, `videoUrl`, `duration` and `status` of element `k`. -/
theorem getResult_of_registered (jobs : String → Option Job) (jobId : String) (job : Job)
    (hjob : jobs jobId = some job) :
    (job.status ≠ "completed" → job.status ≠ "failed" →
      getResult jobs jobId =
        { httpStatus := 200, jobId := some jobId, status := some job.status,
          message := some "Still processing, check back later", createdAt := none,
          completedAt := none, variations := none, videos := none, error := none }) ∧
    (job.status = "completed" ∨ job.status = "failed" →
      (getResult jobs jobId).variations = some (job.variations.map variationView) ∧
      (getResult jobs jobId).videos = some (job.videos.map videoView) ∧
      (∀ vs, (getResult jobs jobId).variations = some vs →
        vs.length = job.variations.length ∧
        ∀ k : Nat, vs[k]? = (job.variations[k]?).map variationView) ∧
      (∀ vs, (getResult jobs jobId).videos = some vs →
        vs.length = job.videos.length ∧
        ∀ k : Nat, vs[k]? = (job.videos[k]?).map videoView) ∧
      (∃ vs, (getResult jobs jobId).variations = some vs ∧
        vs.length = job.variations.length ∧
        ∀ (k : Nat) (v : Variation), job.variations[k]? = some v →
          vs[k]? = some { id := v.id, prompt := v.prompt, imageUrl := v.imageUrl,
                          success := v.success }) ∧
      (∃ ws, (getResult jobs jobId).videos = some ws ∧
        ws.length = job.videos.length ∧
        ∀ (k : Nat) (v : VideoJob), job.videos[k]? = some v →
          ws[k]? = some { id := v.id, variationId := v.variationId, videoUrl := v.videoUrl,
                          duration := v.duration, status := v.status }) ∧
      (getResult jobs jobId).jobId = some jobId ∧
      (getResult jobs jobId).status = some job.status ∧
      (getResult jobs jobId).createdAt = some job.createdAt ∧
      (getResult jobs jobId).completedAt = job.completedAt ∧
      (getResult jobs jobId).error = job.error) := by
  constructor
  · intro h1 h2
    simp [getResult, hjob, h1, h2]
  · intro h
    have hcond : (job.status != "completed" && job.status != "failed") = false := by
      rcases h with h | h <;> simp [h]
    have hv : (getResult jobs jobId).variations = some (job.variations.map variationView) := by
      simp [getResult, hjob, hcond]
    have hw : (getResult jobs jobId).videos = some (job.videos.map videoView) := by
      simp [getResult, hjob, hcond]
    refine ⟨hv, hw, ?_, ?_, ?_, ?_, ?_, ?_, ?_, ?_, ?_⟩
    · intro vs hvs
      rw [hv] at hvs
      cases hvs
      exact ⟨List.length_map _ _, fun k => List.getElem?_map _ _ _⟩
    · intro vs hvs
      rw [hw] at hvs
      cases hvs
      exact ⟨List.length_map _ _, fun k => List.getElem?_map _ _ _⟩
    · refine ⟨_, hv, List.length_map _ _, ?_⟩
      intro k v hk
      rw [List.getElem?_map, hk]
      rfl
    · refine ⟨_, hw, List.length_map _ _, ?_⟩
      intro k v hk
      rw [List.getElem?_map, hk]
      rfl
    · simp [getResult, hjob, hcond]
    · simp [getResult, hjob, hcond]
    · simp [getResult, hjob, hcond]
    · simp [getResult, hjob, hcond]
    · simp [getResult, hjob, hcond]

/-- A job that was just created is still `processing`: its result carries no
lists.  The job of the run whose second submission was rejected, once
completed, answers with the two videos `video_1` and `video_3`, field by
field. -/
theorem getResult_of_registered_witness :
    getResult (registryOf (createJob "job-1" "patio" "t0" false)) "job-1" =
        { httpStatus := 200, jobId := some "job-1", status := some "processing",
          message := some "Still processing, check back later", createdAt := none,
          completedAt := none, variations := none, videos := none, error := none } ∧
    ∃ ws, (getResult
        (registryOf (runJob secondSubmissionFails "job-1" "img" "patio" "t0" true).job)
        "job-1").videos = some ws ∧
      ws.length = 2 ∧
      ws[0]? = some { id := "video_1", variationId := "var_1",
                      videoUrl := some "https://cdn/video.mp4", duration := some "10",
                      status := "completed" } ∧
      ws[1]? = some { id := "video_3", variationId := "var_3",
                      videoUrl := some "https://cdn/video.mp4", duration := some "10",
                      status := "completed" } := by
  refine ⟨(getResult_of_registered (registryOf (createJob "job-1" "patio" "t0" false)) "job-1"
      (createJob "job-1" "patio" "t0" false) rfl).1 (by decide) (by decide), ?_⟩
  obtain ⟨-, -, -, -, -, ⟨ws, hws, hlen, hk⟩, -⟩ :=
    (getResult_of_registered
      (registryOf (runJob secondSubmissionFails "job-1" "img" "patio" "t0" true).job) "job-1"
      (runJob secondSubmissionFails "job-1" "img" "patio" "t0" true).job rfl).2
        (Or.inl (by decide))
  refine ⟨ws, hws, ?_, ?_, ?_⟩
  · rw [hlen]
    decide
  · exact hk 0
      { id := "video_1", variationId := "var_1", taskId := some "task", status := "completed",
        videoUrl := some "https://cdn/video.mp4", duration := some "10", error := none }
      (by decide)
  · exact hk 1
      { id := "video_3", variationId := "var_3", taskId := some "task", status := "completed",
        videoUrl := some "https://cdn/video.mp4", duration := some "10", error := none }
      (by decide)

/-! ## The range of the progress -/

/-- The values assigned to `job.progress` by a run of `processJob` with
videos, iteration by iteration. -/
theorem progressValues_runJob (env : Services) (jobId imageBase64 prompt createdAt : String) :
    progressValues (runJob env jobId imageBase64 prompt createdAt true).trace =
      10 :: 40 ::
        (progressValues (stepEvents (env.submit 0) (env.kling 0) 0
            (variationOf imageBase64 prompt 0 (env.gemini 0))) ++
          (progressValues (stepEvents (env.submit 1) (env.kling 1) 1
              (variationOf imageBase64 prompt 1 (env.gemini 1))) ++
            progressValues (stepEvents (env.submit 2) (env.kling 2) 2
              (variationOf imageBase64 prompt 2 (env.gemini 2))))) ++ [100] := by
  rw [runJob, processJob_trace, generateVariations_three, loopEvents_three]
  have hsave := (projections_saveEvents jobId env.disk
    [variationOf imageBase64 prompt 0 (env.gemini 0),
     variationOf imageBase64 prompt 1 (env.gemini 1),
     variationOf imageBase64 prompt 2 (env.gemini 2)] 0).1
  have h1 : progressValues [Event.setStage "generating_variations", Event.setProgress 10] =
      [10] := by simp [progressValues]
  have h2 : progressValues [Event.setProgress 40] = [40] := by simp [progressValues]
  have h3 : progressValues [Event.setStatus "completed", Event.setProgress 100,
      Event.setCompletedAt env.now] = [100] := by simp [progressValues]
  have h4 : ∀ l, progressValues (Event.setStage "generating_videos" :: l) =
      progressValues l := by intro l; simp [progressValues]
  simp only [progressValues_append, hsave, h1, h2, h3, h4, if_true]
  simp

/-- The value the callback of variation `i` computes at attempt `k` is
assigned to `job.progress` whenever the submission of variation `i` succeeded
and `waitForVideo` reaches attempt `k`. -/
theorem callbackProgress_mem_runJob (env : Services)
    (jobId imageBase64 prompt createdAt : String) (i k : Nat) (hi : i < 3)
    (hsub : (createVideo (env.submit i)).success = true) (hk : k < pollCount (env.kling i)) :
    callbackProgress i k ∈
      progressValues (runJob env jobId imageBase64 prompt createdAt true).trace := by
  have hmem : callbackProgress i k ∈ progressValues (stepEvents (env.submit i) (env.kling i) i
      (variationOf imageBase64 prompt i (env.gemini i))) := by
    rw [progressValues_stepEvents]
    simp only [hsub, if_true]
    exact List.mem_cons_of_mem _ (List.mem_map.mpr ⟨k, List.mem_range.mpr hk, rfl⟩)
  rw [progressValues_runJob]
  interval_cases i <;> simp [hmem]

/-- In the run where the first video fails at its second status check, the
callback of that check assigns `241/6` to `job.progress`. -/
theorem firstVideoFails_progress :
    (241 / 6 : ℚ) ∈
      progressValues (runJob firstVideoFails "job" "img" "patio" "t0" true).trace := by
  have h := callbackProgress_mem_runJob firstVideoFails "job" "img" "patio" "t0" 0 1
    (by decide) (by decide) (by decide)
  have e : callbackProgress 0 1 = 241 / 6 := by
    norm_num [callbackProgress, estimate]
  rw [e] at h
  exact h

/-- C11, the claim as stated fails: while the first video is polled, the
callback of its second status check assigns `40 + 1/6 = 241/6` to
`job.progress`, which is no integer. -/
theorem progress_not_integer :
    (241 / 6 : ℚ) ∈
      progressValues (runJob firstVideoFails "job" "img" "patio" "t0" true).trace ∧
    ∀ n : ℤ, (n : ℚ) ≠ 241 / 6 := by
  constructor
  · exact firstVideoFails_progress
  · intro n h
    have h2 : (6 : ℚ) * (n : ℚ) = 241 := by rw [h]; norm_num
    have h3 : (6 : ℤ) * n = 241 := by exact_mod_cast h2
    omega

/-- C11 as amended: in every run of `processJob` on a freshly created job,
every value taken by `job.progress`, the initial one included, is a number
between 0 and 100 inclusive (it need not be an integer). -/
theorem progress_between_0_and_100 (env : Services)
    (jobId imageBase64 prompt createdAt : String) (generateVideos : Bool) :
    ∀ p ∈ (createJob jobId prompt createdAt generateVideos).progress ::
        progressValues (runJob env jobId imageBase64 prompt createdAt generateVideos).trace,
      0 ≤ p ∧ p ≤ 100 := by
  obtain ⟨P0, P1, P2, htrace, -, -, -, b0, b1, b2⟩ :=
    progressValues_processJob env jobId imageBase64 prompt generateVideos
      (createJob jobId prompt createdAt generateVideos)
  intro p hp
  rw [runJob, htrace] at hp
  have h0 : (createJob jobId prompt createdAt generateVideos).progress = 0 := rfl
  rw [h0] at hp
  simp only [List.cons_append, List.mem_cons, List.mem_append, List.mem_singleton,
    List.not_mem_nil, or_false] at hp
  rcases hp with rfl | rfl | rfl | hp | rfl
  · norm_num
  · norm_num
  · norm_num
  · cases generateVideos
    · simp at hp
    · simp only [if_true, List.mem_append] at hp
      rcases hp with hp | hp | hp
      · have := b0 p hp; constructor <;> linarith
      · have := b1 p hp; constructor <;> linarith
      · have := b2 p hp; constructor <;> linarith
  · norm_num

/-- The value `241/6` taken by `job.progress` while the first video is polled
lies between 0 and 100. -/
theorem progress_between_0_and_100_witness :
    (241 / 6 : ℚ) ∈
      (createJob "job" "patio" "t0" true).progress ::
        progressValues (runJob firstVideoFails "job" "img" "patio" "t0" true).trace ∧
    (0 : ℚ) ≤ 241 / 6 ∧ (241 / 6 : ℚ) ≤ 100 :=
  ⟨List.mem_cons_of_mem _ firstVideoFails_progress,
   progress_between_0_and_100 firstVideoFails "job" "img" "patio" "t0" true (241 / 6)
     (List.mem_cons_of_mem _ firstVideoFails_progress)⟩

/-! ## The statuses of the video tasks -/

theorem videoStatusValues_append (l₁ l₂ : List Event) :
    videoStatusValues (l₁ ++ l₂) = videoStatusValues l₁ ++ videoStatusValues l₂ := by
  simp [videoStatusValues]

theorem videoStatusValues_saveEvents (jobId : String) (disk : Nat → Bool)
    (variations : List Variation) (k : Nat) :
    videoStatusValues (saveEvents jobId disk variations k) = [] := by
  induction variations generalizing k with
  | nil => simp [saveEvents, videoStatusValues]
  | cons v rest ih =>
    have h := ih (k + 1)
    simp only [videoStatusValues] at h ⊢
    simp [saveEvents, h]

theorem videoStatusValues_callbacks (kling : Nat → StatusResponse) (i : Nat) (l : List Nat) :
    videoStatusValues (l.flatMap (callbackEvents kling i)) =
      l.map (fun k => (checkStatus (kling k)).status) := by
  induction l with
  | nil => simp [videoStatusValues]
  | cons k rest ih =>
    simp only [videoStatusValues] at ih ⊢
    simp [callbackEvents, ih]

theorem videoStatusValues_finishEvents (i : Nat) (r : Except String StatusResult) :
    ∀ s ∈ videoStatusValues (finishEvents i r), s = "completed" ∨ s = "failed" := by
  intro s hs
  cases r with
  | error msg =>
    simp [finishEvents, videoStatusValues] at hs
    exact Or.inr hs
  | ok result =>
    by_cases hv : (result.success && truthy result.videoUrl) = true
    · simp [finishEvents, hv, videoStatusValues] at hs
      exact Or.inl hs
    · simp [finishEvents, hv, videoStatusValues] at hs

/-- The statuses iteration `i` of the video loop gives to its `videoJob`:
the initial `processing`, the status of each check that was made, and the
closing `completed` or `failed`. -/
theorem videoStatusValues_stepEvents (submit : SubmitResponse) (kling : Nat → StatusResponse)
    (i : Nat) (variation : Variation) :
    ∀ s ∈ videoStatusValues (stepEvents submit kling i variation),
      s = "processing" ∨ s = "completed" ∨ s = "failed" ∨
      ∃ k, k < 180 ∧ (createVideo submit).success = true ∧ k < pollCount kling ∧
        s = (checkStatus (kling k)).status := by
  intro s hs
  unfold stepEvents at hs
  by_cases hsub : (createVideo submit).success = true
  · simp only [hsub, if_true, videoStatusValues_append, videoStatusValues_callbacks,
      List.mem_append, List.mem_map, List.mem_range] at hs
    rcases hs with hs | (hs | ⟨k, hk, rfl⟩) | hs
    · simp [videoStatusValues] at hs
    · simp [videoStatusValues, newVideoJob] at hs
      exact Or.inl hs
    · exact Or.inr (Or.inr (Or.inr
        ⟨k, lt_of_lt_of_le hk (pollCount_le kling), hsub, hk, rfl⟩))
    · rcases videoStatusValues_finishEvents i _ s hs with h | h
      · exact Or.inr (Or.inl h)
      · exact Or.inr (Or.inr (Or.inl h))
  · simp [hsub, videoStatusValues] at hs

/-- The status of every check that was made is given to the `videoJob`. -/
theorem status_mem_videoStatusValues_stepEvents (submit : SubmitResponse)
    (kling : Nat → StatusResponse) (i : Nat) (variation : Variation) (k : Nat)
    (hsub : (createVideo submit).success = true) (hk : k < pollCount kling) :
    (checkStatus (kling k)).status ∈ videoStatusValues (stepEvents submit kling i variation) := by
  unfold stepEvents
  simp only [hsub, if_true, videoStatusValues_append, videoStatusValues_callbacks,
    List.mem_append, List.mem_map, List.mem_range]
  exact Or.inr (Or.inl (Or.inr ⟨k, hk, rfl⟩))

/-- The status iteration `i` of the video loop leaves in its `videoJob`. -/
theorem stepVideos_status (submit : SubmitResponse) (kling : Nat → StatusResponse) (i : Nat)
    (variation : Variation) :
    ∀ v ∈ stepVideos submit kling i variation,
      v.status = "completed" ∨ v.status = "failed" ∨
      ∃ k, k < 180 ∧ (createVideo submit).success = true ∧ k < pollCount kling ∧
        v.status = (checkStatus (kling k)).status := by
  intro v hv
  unfold stepVideos at hv
  by_cases hs : (createVideo submit).success = true
  · simp only [hs, if_true, List.mem_singleton] at hv
    subst hv
    have hlast : ∃ k, k < 180 ∧ (createVideo submit).success = true ∧ k < pollCount kling ∧
        lastStatus kling = (checkStatus (kling k)).status :=
      ⟨pollCount kling - 1, by have := pollCount_le kling; have := pollCount_pos kling; omega,
        hs, by have := pollCount_pos kling; omega, rfl⟩
    cases hr : pollResult kling with
    | error msg => exact Or.inr (Or.inl (by simp [finishVideo]))
    | ok result =>
      by_cases hu : (result.success && truthy result.videoUrl) = true
      · exact Or.inl (by simp [finishVideo, hu])
      · refine Or.inr (Or.inr ?_)
        simpa [finishVideo, hu] using hlast
  · simp [hs] at hv

/-- The statuses given to the video tasks in a run of `processJob` with
videos, iteration by iteration. -/
theorem videoStatusValues_runJob (env : Services) (jobId imageBase64 prompt createdAt : String) :
    videoStatusValues (runJob env jobId imageBase64 prompt createdAt true).trace =
      videoStatusValues (stepEvents (env.submit 0) (env.kling 0) 0
          (variationOf imageBase64 prompt 0 (env.gemini 0))) ++
        (videoStatusValues (stepEvents (env.submit 1) (env.kling 1) 1
            (variationOf imageBase64 prompt 1 (env.gemini 1))) ++
          videoStatusValues (stepEvents (env.submit 2) (env.kling 2) 2
            (variationOf imageBase64 prompt 2 (env.gemini 2)))) := by
  rw [runJob, processJob_trace, generateVariations_three, loopEvents_three]
  have h1 : videoStatusValues [Event.setStage "generating_variations", Event.setProgress 10] =
      [] := by simp [videoStatusValues]
  have h2 : videoStatusValues [Event.setProgress 40] = [] := by simp [videoStatusValues]
  have h3 : videoStatusValues [Event.setStatus "completed", Event.setProgress 100,
      Event.setCompletedAt env.now] = [] := by simp [videoStatusValues]
  have h4 : ∀ l, videoStatusValues (Event.setStage "generating_videos" :: l) =
      videoStatusValues l := by intro l; simp [videoStatusValues]
  simp only [videoStatusValues_append, videoStatusValues_saveEvents, h1, h2, h3, h4,
    if_true, List.nil_append, List.append_nil]

/-- Without videos no video task ever gets a status. -/
theorem videoStatusValues_runJob_without_videos (env : Services)
    (jobId imageBase64 prompt createdAt : String) :
    videoStatusValues (runJob env jobId imageBase64 prompt createdAt false).trace = [] := by
  rw [runJob, processJob_trace]
  have h1 : videoStatusValues [Event.setStage "generating_variations", Event.setProgress 10] =
      [] := by simp [videoStatusValues]
  have h2 : videoStatusValues [Event.setProgress 40] = [] := by simp [videoStatusValues]
  have h3 : videoStatusValues [Event.setStatus "completed", Event.setProgress 100,
      Event.setCompletedAt env.now] = [] := by simp [videoStatusValues]
  have h5 : videoStatusValues [] = [] := rfl
  simp only [videoStatusValues_append, videoStatusValues_saveEvents, h1, h2, h3, h5,
    Bool.false_eq_true, if_false, List.nil_append, List.append_nil]

/-- C12, the claim as stated fails: in a run where each video's first status
request is rejected, the second reports `submitted` and the third reports
`succeed` with a video, the video tasks take the statuses `error`,
`submitted` and `completed`, and all three end with the status `completed`;
none of these is `processing`, `succeed` or `failed`. -/
theorem video_status_outside_set :
    videoStatusValues (runJob statusCheckRejectedOnce "job" "img" "patio" "t0" true).trace =
      ["processing", "error", "submitted", "succeed", "completed",
       "processing", "error", "submitted", "succeed", "completed",
       "processing", "error", "submitted", "succeed", "completed"] ∧
    (runJob statusCheckRejectedOnce "job" "img" "patio" "t0" true).job.videos.map
      (fun v => v.status) = ["completed", "completed", "completed"] ∧
    "completed" ∉ ["processing", "succeed", "failed"] ∧
    "error" ∉ ["processing", "succeed", "failed"] ∧
    "submitted" ∉ ["processing", "succeed", "failed"] := by
  decide

/-- C12 as amended: in every run of `processJob`, every status a video task
is pushed with or later given, and every status of `job.videos` at the end,
is `processing`, `completed`, `failed`, or the status returned by a status
check that was actually made: check `k` of video `i`, where the submission of
video `i` succeeded and `k` is below the number of checks `waitForVideo`
makes for it (whatever the service reports, or `error` when the check fails).
Conversely the status returned by every check that was made is given to a
video task. -/
theorem video_status_allowed (env : Services) (jobId imageBase64 prompt createdAt : String)
    (generateVideos : Bool) :
    (∀ s ∈ videoStatusValues
        (runJob env jobId imageBase64 prompt createdAt generateVideos).trace,
      s = "processing" ∨ s = "completed" ∨ s = "failed" ∨
      ∃ i k, i < 3 ∧ k < 180 ∧ (createVideo (env.submit i)).success = true ∧
        k < pollCount (env.kling i) ∧ s = (checkStatus (env.kling i k)).status) ∧
    (∀ v ∈ (runJob env jobId imageBase64 prompt createdAt generateVideos).job.videos,
      v.status = "processing" ∨ v.status = "completed" ∨ v.status = "failed" ∨
      ∃ i k, i < 3 ∧ k < 180 ∧ (createVideo (env.submit i)).success = true ∧
        k < pollCount (env.kling i) ∧ v.status = (checkStatus (env.kling i k)).status) ∧
    (∀ (i : Nat) (w : World),
      countChecks (waitForVideo (env.kling i) (some (progressCallback i)) w).log =
        pollCount (env.kling i)) ∧
    (∀ i k, i < 3 → (createVideo (env.submit i)).success = true →
      k < pollCount (env.kling i) →
      (checkStatus (env.kling i k)).status ∈
        videoStatusValues (runJob env jobId imageBase64 prompt createdAt true).trace) := by
  have lift : ∀ (i : Nat) (s : String), i < 3 →
      (s = "processing" ∨ s = "completed" ∨ s = "failed" ∨
        ∃ k, k < 180 ∧ (createVideo (env.submit i)).success = true ∧
          k < pollCount (env.kling i) ∧ s = (checkStatus (env.kling i k)).status) →
      (s = "processing" ∨ s = "completed" ∨ s = "failed" ∨
        ∃ i k, i < 3 ∧ k < 180 ∧ (createVideo (env.submit i)).success = true ∧
          k < pollCount (env.kling i) ∧ s = (checkStatus (env.kling i k)).status) := by
    intro i s hi h
    rcases h with h | h | h | ⟨k, hk, hs, hp, h⟩
    · exact Or.inl h
    · exact Or.inr (Or.inl h)
    · exact Or.inr (Or.inr (Or.inl h))
    · exact Or.inr (Or.inr (Or.inr ⟨i, k, hi, hk, hs, hp, h⟩))
  refine ⟨?_, ?_, ?_, ?_⟩
  · intro s hs
    cases generateVideos
    · rw [videoStatusValues_runJob_without_videos] at hs
      simp at hs
    · rw [videoStatusValues_runJob, List.mem_append, List.mem_append] at hs
      rcases hs with hs | hs | hs
      · exact lift 0 s (by decide) (videoStatusValues_stepEvents _ _ _ _ s hs)
      · exact lift 1 s (by decide) (videoStatusValues_stepEvents _ _ _ _ s hs)
      · exact lift 2 s (by decide) (videoStatusValues_stepEvents _ _ _ _ s hs)
  · intro v hv
    cases generateVideos
    · rw [runJob, processJob_videos] at hv
      simp [createJob] at hv
    · rw [videos_runJob, List.mem_append, List.mem_append] at hv
      rcases hv with hv | hv | hv
      · exact lift 0 _ (by decide) (Or.inr (stepVideos_status _ _ _ _ v hv))
      · exact lift 1 _ (by decide) (Or.inr (stepVideos_status _ _ _ _ v hv))
      · exact lift 2 _ (by decide) (Or.inr (stepVideos_status _ _ _ _ v hv))
  · intro i w
    rw [waitForVideo_eq_poll]
    exact countChecks_pollLog _
  · intro i k hi hsub hk
    rw [videoStatusValues_runJob, List.mem_append, List.mem_append]
    interval_cases i
    · exact Or.inl (status_mem_videoStatusValues_stepEvents _ _ _ _ k hsub hk)
    · exact Or.inr (Or.inl (status_mem_videoStatusValues_stepEvents _ _ _ _ k hsub hk))
    · exact Or.inr (Or.inr (status_mem_videoStatusValues_stepEvents _ _ _ _ k hsub hk))

/-! ## generateJWT -/

/-- C13: for every access key, secret key and clock reading, with `now` the
clock in whole seconds, `generateJWT` returns `h.p.s` where `h` encodes the
header `{ alg: HS256, typ: JWT }`, `p` encodes a payload with
`iss = sub = access_key =` the access key, `iat = nbf = now` and
`exp = now + 3600` (a window of one hour), and `s` is the HMAC under the
secret key of the string `h.p`. -/
theorem generateJWT_token (rt : NodeRuntime) (accessKey secretKey : String) :
    ∃ (now : Nat) (header : JwtHeader) (payload : JwtPayload),
      now * 1000 ≤ rt.dateNow ∧ rt.dateNow < (now + 1) * 1000 ∧
      header = { alg := "HS256", typ := "JWT" } ∧
      payload.iss = accessKey ∧ payload.sub = accessKey ∧ payload.access_key = accessKey ∧
      payload.iat = now ∧ payload.nbf = now ∧ payload.exp = now + 3600 ∧
      payload.exp - payload.nbf = 60 * 60 ∧
      payload.aud = "kling-api" ∧ payload.jti = rt.randomHex ∧
      generateJWT rt accessKey secretKey =
        rt.base64url (rt.stringifyHeader header) ++ "." ++
          rt.base64url (rt.stringifyPayload payload) ++ "." ++
          rt.hmacSha256 secretKey
            (rt.base64url (rt.stringifyHeader header) ++ "." ++
              rt.base64url (rt.stringifyPayload payload)) := by
  refine ⟨rt.dateNow / 1000, { alg := "HS256", typ := "JWT" },
    { iss := accessKey, sub := accessKey, aud := "kling-api",
      exp := rt.dateNow / 1000 + 3600, nbf := rt.dateNow / 1000, iat := rt.dateNow / 1000,
      jti := rt.randomHex, access_key := accessKey },
    ?_, ?_, rfl, rfl, rfl, rfl, rfl, rfl, rfl, ?_, rfl, rfl, rfl⟩
  · omega
  · omega
  · simp

/-! ## The progress band of a variation -/

/-- C14: for a variation index `i ≤ 2` and every poll attempt `k` (so for
`k` in 0..179), the estimate `waitForVideo` passes to the callback is
`min(5k/6, 99)`, never above 99, and the value the callback of `processJob`
then gives to `job.progress` is `min(40 + 20i + 0.2 * estimate, 95)`, which
lies in the band from `40 + 20i` inclusive to `40 + 20(i+1)` exclusive and is
at most 95. -/
theorem callback_progress_in_band (i k : Nat) (hi : i ≤ 2) :
    estimate k = min (5 * (k : ℚ) / 6) 99 ∧
    estimate k ≤ 99 ∧
    (∀ (cb : String → ℚ → World → World) (status : StatusResult) (w : World),
      callbackAt (some cb) status k w = cb status.status (estimate k) w) ∧
    (∀ (status : String) (w : World),
      (progressCallback i status (estimate k) w).job.progress =
        min (40 + 20 * (i : ℚ) + 0.2 * estimate k) 95) ∧
    40 + 20 * (i : ℚ) ≤ min (40 + 20 * (i : ℚ) + 0.2 * estimate k) 95 ∧
    min (40 + 20 * (i : ℚ) + 0.2 * estimate k) 95 < 40 + 20 * ((i : ℚ) + 1) ∧
    min (40 + 20 * (i : ℚ) + 0.2 * estimate k) 95 ≤ 95 := by
  have e : min (40 + 20 * (i : ℚ) + 0.2 * estimate k) 95 = callbackProgress i k := by
    unfold callbackProgress
    congr 1
    ring
  refine ⟨?_, estimate_le k, fun _ _ _ => rfl, ?_, ?_, ?_, ?_⟩
  · unfold estimate
    congr 1
    ring
  · intro status w
    rw [e]
    rfl
  · rw [e]
    have := callbackProgress_lower i k hi
    linarith
  · rw [e]
    have := (callbackProgress_upper i k).1
    linarith
  · exact min_le_right _ _

/-- The third variation at poll attempt 150: the estimate is capped at 99 and
the progress at 95, inside the band from 80 to 100. -/
theorem callback_progress_in_band_witness :
    estimate 150 = min (5 * ((150 : Nat) : ℚ) / 6) 99 ∧
    estimate 150 ≤ 99 ∧
    40 + 20 * ((2 : Nat) : ℚ) ≤ min (40 + 20 * ((2 : Nat) : ℚ) + 0.2 * estimate 150) 95 ∧
    min (40 + 20 * ((2 : Nat) : ℚ) + 0.2 * estimate 150) 95 < 40 + 20 * (((2 : Nat) : ℚ) + 1) :=
  ⟨(callback_progress_in_band 2 150 (by decide)).1,
   (callback_progress_in_band 2 150 (by decide)).2.1,
   (callback_progress_in_band 2 150 (by decide)).2.2.2.2.1,
   (callback_progress_in_band 2 150 (by decide)).2.2.2.2.2.1⟩

end Server
